import Mathlib

/-!
# Verification of the bookbond cross-corpus passage relationship engine

A shallow embedding, in Lean 4, of the core services of the bookbond
repository (`src/services/embeddingService.ts`,
`src/services/passageComparisonService.ts`,
`src/services/autoComparisonService.ts` and the comparison slice of
`src/store/conceptStore.ts`), together with theorems settling the spec
claims about them.

Modelling conventions:

* JavaScript numbers that arise as cosine similarities are modelled by
  `Option SimScore`: `some ⟨d, p⟩` denotes the real number `d / √p`
  (with `p > 0` for every value the code constructs), and `none`
  denotes `NaN`.  A plain rational `q` is represented as `some ⟨q, 1⟩`.
  Exact (real) arithmetic stands in for IEEE floating point.
* Fallible TypeScript code (`throw` / rejected promises) is modelled
  with `Except String` (or `Except Unit` where the message is
  irrelevant); a `catch` is a `match` on the `Except`.
* JS `Map`s keyed by passage id are modelled as lists in insertion
  order; `Map.set` replaces in place or appends (`mapSet`).
* `Array.prototype.sort` is modelled as a stable insertion sort
  (`jsSort`); for a consistent comparator a stable sort's result is
  unique, so any stable sort models the ECMA-262 requirement.  Per
  ECMA-262 (`CompareArrayElements`), a comparator result of `NaN` is
  coerced to `+0`, i.e. the two elements compare as equal and the
  stable sort keeps their original relative order; `jsSortKeep`
  implements exactly the comparator `(a, b) => b.similarity - a.similarity`
  under that rule.
-/

/-- A passage, from `src/lib/textProcessing.ts` (`start`/`end` renamed to
`startOff`/`endOff` because `end` is reserved in Lean). -/
structure Passage where
  id : String
  text : String
  startOff : Int
  endOff : Int
  bookId : String
deriving DecidableEq, Repr

/-- A book (corpus); only the fields the modelled code reads. -/
structure Book where
  id : String
  title : String
deriving DecidableEq, Repr

/-- A stored embedding vector, from `embeddingService.ts` (`PassageVector`). -/
structure PassageVector where
  passageId : String
  bookId : String
  vector : List ℚ
deriving DecidableEq, Repr

/-- The value of a (non-NaN) cosine similarity as computed by
`cosineSimilarity`: `⟨d, p⟩` denotes the real number `d / √p`, which is
how the code's `dotProduct / (Math.sqrt(normA) * Math.sqrt(normB))`
factors (`p = normA * normB`, and
`Math.sqrt(normA) * Math.sqrt(normB) = √(normA·normB)`).  The code only
builds values with `p > 0`. -/
structure SimScore where
  dot : ℚ
  np : ℚ
deriving DecidableEq, Repr

/-- `Σ aᵢ·bᵢ` over the common prefix — the loop
`for (i = 0; i < vecA.length; i++) dotProduct += vecA[i]*vecB[i]`
restricted to indices where both entries exist. -/
def dotProduct : List ℚ → List ℚ → ℚ
  | a :: as, b :: bs => a * b + dotProduct as bs
  | _, _ => 0

/-- `cosineSimilarity` (`embeddingService.ts` lines 29–41).  The loop runs
over `vecA.length` indices; when `vecA` is longer than `vecB` the access
`vecB[i]` is `undefined`, poisoning the sums with `NaN` (`none`).  When
either accumulated norm is `0`, the result is `0/0 = NaN` (`none`).
Otherwise the value is `dot / (√normA·√normB) = dot / √(normA·normB)`,
represented as `some ⟨dot, normA·normB⟩`. -/
def cosineSimilarity (vecA vecB : List ℚ) : Option SimScore :=
  if vecB.length < vecA.length then none
  else
    let bUsed := vecB.take vecA.length
    let d := dotProduct vecA bUsed
    let normA := dotProduct vecA vecA
    let normB := dotProduct bUsed bUsed
    if normA = 0 ∨ normB = 0 then none
    else some ⟨d, normA * normB⟩

/-- Decides `s.dot / √s.np ≥ t` by rational arithmetic (sound for
`s.np > 0`): for `s.dot ≥ 0` this is `t ≤ 0 ∨ t²·np ≤ dot²`; for
`s.dot < 0` it is `t ≤ 0 ∧ dot² ≤ t²·np`. -/
def simGe (s : SimScore) (t : ℚ) : Bool :=
  if 0 ≤ s.dot then decide (t ≤ 0) || decide (t ^ 2 * s.np ≤ s.dot ^ 2)
  else decide (t ≤ 0) && decide (s.dot ^ 2 ≤ t ^ 2 * s.np)

/-- The JS comparison `similarity >= threshold`: `false` when the
similarity is `NaN` (`none`), otherwise the real comparison. -/
def jsNumGe (x : Option SimScore) (t : ℚ) : Bool :=
  match x with
  | some s => simGe s t
  | none => false

/-- Decides `x.dot / √x.np ≤ y.dot / √y.np` by rational arithmetic
(sound for `x.np > 0`, `y.np > 0`), by sign analysis and squaring. -/
def simLe (x y : SimScore) : Bool :=
  if 0 ≤ x.dot then decide (0 ≤ y.dot) && decide (x.dot ^ 2 * y.np ≤ y.dot ^ 2 * x.np)
  else decide (0 ≤ y.dot) || decide (y.dot ^ 2 * x.np ≤ x.dot ^ 2 * y.np)

/-- The sort comparator `(a, b) => b.similarity - a.similarity`, turned
into the "keep `a` before `b`" relation used by a stable sort: the JS
sort keeps `a` before `b` iff the comparator result is `≤ 0` — that is,
`b.similarity ≤ a.similarity` — and per ECMA-262 a `NaN` comparator
result is coerced to `+0`, so any comparison involving a `NaN`
similarity keeps the original order. -/
def jsSortKeep (a b : String × Option SimScore) : Bool :=
  match a.2, b.2 with
  | some x, some y => simLe y x
  | _, _ => true

/-- Insert `x` before the first element it may precede (`keep x y`). -/
def jsOrderedInsert (keep : α → α → Bool) (x : α) : List α → List α
  | [] => [x]
  | y :: ys => if keep x y then x :: y :: ys else y :: jsOrderedInsert keep x ys

/-- A stable insertion sort: with the "keep before" relation of a
consistent comparator this produces the unique stable sorted order
required of `Array.prototype.sort`. -/
def jsSort (keep : α → α → Bool) : List α → List α
  | [] => []
  | x :: xs => jsOrderedInsert keep x (jsSort keep xs)

/-- `EmbeddingService.getBookVectors` (lines 184–187). -/
def getBookVectors (store : List PassageVector) (bookId : String) : List PassageVector :=
  store.filter (fun pv => pv.bookId == bookId)

/-- `JS Map.set`: replace the entry with the same key in place, or append. -/
def mapSet (store : List PassageVector) (pv : PassageVector) : List PassageVector :=
  if store.any (fun q => q.passageId == pv.passageId) then
    store.map (fun q => if q.passageId == pv.passageId then pv else q)
  else store ++ [pv]

/-- `EmbeddingService.processPassages` (lines 94–122): one embedding
oracle call per passage; a failed call (`none`) is caught per passage
and its result dropped; successful results are stored.  The function
itself never fails. -/
def processPassages (oracle : String → Option (List ℚ))
    (store : List PassageVector) (passages : List Passage) : List PassageVector :=
  passages.foldl
    (fun st p =>
      match oracle p.text with
      | some v => mapSet st ⟨p.id, p.bookId, v⟩
      | none => st)
    store

/-- The per-corpus "has been embedded" check used throughout
(`getBookVectors(bookId).length === 0` negated). -/
def hasVectors (store : List PassageVector) (bookId : String) : Bool :=
  !(getBookVectors store bookId).isEmpty

/-- `PassageComparisonService.indexBook` (lines 62–76): throws iff the
book has no passages; otherwise runs `processPassages` (which swallows
individual embedding failures). `passages` is `bookStore.getPassages(bookId)`. -/
def indexBook (oracle : String → Option (List ℚ))
    (store : List PassageVector) (passages : List Passage) :
    Except String (List PassageVector) :=
  if passages.isEmpty then .error "No passages found for book"
  else .ok (processPassages oracle store passages)

/-- `EmbeddingService.findSimilarPassages` (lines 127–172): embed the
query via the oracle (a failure rethrows), restrict the store to the
target book (throwing when empty), compute all cosine similarities,
sort descending by the JS comparator and keep the first `topK`.
Results are `(passageId, similarity)` pairs; `NaN` similarities are
*not* filtered out. -/
def findSimilarPassages (oracle : String → Option (List ℚ))
    (store : List PassageVector) (queryPassage : Passage)
    (targetBookId : String) (topK : Nat) :
    Except String (List (String × Option SimScore)) :=
  match oracle queryPassage.text with
  | none => .error "Error generating embedding"
  | some queryVector =>
    let targetPassageVectors := getBookVectors store targetBookId
    if targetPassageVectors.isEmpty then .error "No passages found for book"
    else
      let similarities := targetPassageVectors.map
        (fun pv => (pv.passageId, cosineSimilarity queryVector pv.vector))
      .ok ((jsSort jsSortKeep similarities).take topK)

/-- The candidate-selection portion of
`PassageComparisonService.compareWithBook` (lines 96–108): the vector
index query followed by the `similarity >= threshold` filter (a `NaN`
similarity fails that comparison). -/
def selectCandidates (oracle : String → Option (List ℚ))
    (store : List PassageVector) (focusPassage : Passage)
    (targetBookId : String) (topK : Nat) (similarityThreshold : ℚ) :
    Except String (List (String × Option SimScore)) :=
  (findSimilarPassages oracle store focusPassage targetBookId topK).map
    (fun similarPassages =>
      similarPassages.filter (fun p => jsNumGe p.2 similarityThreshold))

/-- Modelled from the spec's words (§4.2 Candidate Selector), for
refinement comparison with `selectCandidates`: "Filters Vector Index
results to similarity ≥ threshold, then caps to topK (threshold
filtering happens before the cap)", the Vector Index results being all
target-corpus candidates sorted by descending cosine similarity. -/
def specSelectCandidates (oracle : String → Option (List ℚ))
    (store : List PassageVector) (focusPassage : Passage)
    (targetBookId : String) (topK : Nat) (similarityThreshold : ℚ) :
    Except String (List (String × Option SimScore)) :=
  match oracle focusPassage.text with
  | none => .error "Error generating embedding"
  | some queryVector =>
    let targetPassageVectors := getBookVectors store targetBookId
    if targetPassageVectors.isEmpty then .error "No passages found for book"
    else
      let similarities := targetPassageVectors.map
        (fun pv => (pv.passageId, cosineSimilarity queryVector pv.vector))
      .ok (((jsSort jsSortKeep similarities).filter
              (fun p => jsNumGe p.2 similarityThreshold)).take topK)

/-- `AutoComparisonService.setAutoSimilarityThreshold` (lines 38–42):
update only when `0 ≤ t ≤ 1`, otherwise keep the current value. -/
def setAutoSimilarityThreshold (autoSimilarityThreshold t : ℚ) : ℚ :=
  if 0 ≤ t ∧ t ≤ 1 then t else autoSimilarityThreshold

/-- The field initialiser `autoSimilarityThreshold = 0.5`. -/
def initialAutoSimilarityThreshold : ℚ := 1 / 2

/-- `useComparisonStore.addIndexedBook` (`conceptStore.ts`): append the
id unless already present. -/
def addIndexedBook (indexedBooks : List String) (bookId : String) : List String :=
  if indexedBooks.contains bookId then indexedBooks else indexedBooks ++ [bookId]

/-! ## Chapter estimation (`passageComparisonService.ts` lines 614–663) -/

/-- The JS `\s` character class (ECMA-262 WhiteSpace ∪ LineTerminator). -/
def isJsWs (c : Char) : Bool :=
  c == ' ' || c == '\t' || c == '\n' || c == '\x0b' || c == '\x0c' || c == '\r'
  || c.val == 0xa0 || c.val == 0x1680
  || (0x2000 ≤ c.val && c.val ≤ 0x200a)
  || c.val == 0x2028 || c.val == 0x2029 || c.val == 0x202f
  || c.val == 0x205f || c.val == 0x3000 || c.val == 0xfeff

/-- Strip a literal keyword from the front of a character list. -/
def dropKeyword : List Char → List Char → Option (List Char)
  | [], cs => some cs
  | _ :: _, [] => none
  | k :: ks, c :: cs => if c == k then dropKeyword ks cs else none

/-- After the keyword: `\s+\d` — at least one whitespace then a digit
(the regexes are `^chapter\s+\d+` and `^part\s+\d+`; one digit decides
the match since `\d+` is `\d` followed by more). -/
def headingTail (rest : List Char) : Bool :=
  let ws := rest.takeWhile isJsWs
  !ws.isEmpty &&
    (match rest.drop ws.length with
     | c :: _ => c.isDigit
     | [] => false)

/-- `passageText.match(/^chapter\s+\d+/i) || passageText.match(/^part\s+\d+/i)`
applied to `passage.text.toLowerCase()`. -/
def isChapterHeading (text : String) : Bool :=
  let lc := text.data.map Char.toLower
  (match dropKeyword "chapter".data lc with
   | some r => headingTail r
   | none => false)
  || (match dropKeyword "part".data lc with
      | some r => headingTail r
      | none => false)

/-- The boundary test of the `estimateChapters` loop: a heading match,
or a short passage (`text.length < 100`) that is not the final one. -/
def isChapterBoundary (n i : Nat) (p : Passage) : Bool :=
  isChapterHeading p.text || (decide (p.text.length < 100) && decide (i < n - 1))

/-- A chapter-like segment (`{index, startIdx, endIdx}`). -/
structure Chapter where
  index : Nat
  startIdx : Nat
  endIdx : Nat
deriving DecidableEq, Repr

/-- The main loop of `estimateChapters` (lines 619–639): on a boundary
at `i`, close the previous segment (when non-empty) and restart at `i`.
Returns the final `chapterStart` and the accumulated segments. -/
def chaptersLoop (passages : List Passage) (n i chapterStart : Nat)
    (acc : List Chapter) : Nat × List Chapter :=
  if _h : i < n then
    if isChapterBoundary n i (passages.getD i ⟨"", "", 0, 0, ""⟩) then
      chaptersLoop passages n (i + 1) i
        (if chapterStart < i then acc ++ [⟨acc.length, chapterStart, i - 1⟩] else acc)
    else chaptersLoop passages n (i + 1) chapterStart acc
  else (chapterStart, acc)
termination_by n - i

/-- The uniform fallback loop (lines 651–659): segments of `size`
passages.  `size = 0` only ever arises with `n = 0`, where the JS loop
is also vacuous; the guard keeps the model total. -/
def uniformLoop (n size i : Nat) (acc : List Chapter) : List Chapter :=
  if size = 0 then acc
  else if i < n then
    uniformLoop n size (i + size) (acc ++ [⟨acc.length, i, min (i + size - 1) (n - 1)⟩])
  else acc
termination_by n - i

/-- `estimateChapters` (lines 614–663): scan for boundaries, close the
final segment, and fall back to roughly ten uniform segments when no
segment was produced. -/
def estimateChapters (passages : List Passage) : List Chapter :=
  let n := passages.length
  let r := chaptersLoop passages n 0 0 []
  let chapters := if r.1 < n then r.2 ++ [⟨r.2.length, r.1, n - 1⟩] else r.2
  if chapters.isEmpty then
    let chapterSize := (n + 9) / 10
    uniformLoop n chapterSize 0 []
  else chapters

/-! ## The automatic comparison sweep (`autoComparisonService.ts`) -/

/-- The mutable cells of the sweep that the modelled claims observe:
the `PassageComparisonService` threshold, the persisted user threshold
and indexed-book list of `useComparisonStore`, and the embedding store. -/
structure SweepState where
  pcsThreshold : ℚ
  storeThreshold : ℚ
  indexedBooks : List String
  vectors : List PassageVector
deriving DecidableEq, Repr

/-- The indexing step of `compareWithAllBooks` for the new book
(lines 99–106): `indexBook` then `addIndexedBook`, or no state change
when `indexBook` throws. -/
def indexCorpus (oracle : String → Option (List ℚ)) (st : SweepState)
    (passages : List Passage) (bookId : String) : SweepState :=
  match indexBook oracle st.vectors passages with
  | .ok v => { st with vectors := v, indexedBooks := addIndexedBook st.indexedBooks bookId }
  | .error _ => st

/-- `compareAllPassages`' on-demand indexing of a book (lines 154–164):
index only when no vectors exist; an `indexBook` failure propagates to
the caller, but the per-pair `catch` in the sweep turns it into "no
further effect", which for these cells is the same as keeping the
store. -/
def ensureIndexed (oracle : String → Option (List ℚ))
    (vectors : List PassageVector) (passages : List Passage)
    (bookId : String) : List PassageVector :=
  if hasVectors vectors bookId then vectors
  else
    match indexBook oracle vectors passages with
    | .ok v => v
    | .error _ => vectors

/-- One iteration of the sweep's `for` loop (lines 109–182), restricted
to the modelled cells: optionally index the target book (lines
123–128), then run `compareAllPassages` in both directions — which may
index either book on demand but only *reads* the similarity threshold
(the loop body contains no `setSimilarityThreshold` call); relation
results and progress reporting are outside the modelled state.  All
exceptions in the body are caught by the per-pair `catch` (line 177),
so the loop always runs to completion. -/
def sweepPairBody (oracle : String → Option (List ℚ))
    (passagesOf : String → List Passage) (newBookId : String)
    (st : SweepState) (existingBook : Book) : SweepState :=
  let st1 :=
    if st.indexedBooks.contains existingBook.id then st
    else
      match indexBook oracle st.vectors (passagesOf existingBook.id) with
      | .ok v =>
        { st with vectors := v,
                  indexedBooks := addIndexedBook st.indexedBooks existingBook.id }
      | .error _ => st
  let v2 := ensureIndexed oracle st1.vectors (passagesOf newBookId) newBookId
  let v3 := ensureIndexed oracle v2 (passagesOf existingBook.id) existingBook.id
  { st1 with vectors := v3 }

/-- `AutoComparisonService.compareWithAllBooks` (lines 75–187) as a
state transformer on the modelled cells.  Exit paths: missing API keys
(line 78) and no existing books (line 89) return before the sweep
threshold is installed; a failure indexing the new book returns at
line 105 *after* the install and *without* the restore; the normal path
restores `pcsThreshold` from the store's user threshold at lines
184–186. -/
def compareWithAllBooks (oracle : String → Option (List ℚ))
    (apiKeysSet : Bool) (autoSimilarityThreshold : ℚ)
    (books : List Book) (passagesOf : String → List Passage)
    (st : SweepState) (newBook : Book) : SweepState :=
  if !apiKeysSet then st
  else
    let existingBooks := books.filter (fun b => b.id ≠ newBook.id)
    if existingBooks.isEmpty then st
    else
      let st1 := { st with pcsThreshold := autoSimilarityThreshold }
      match indexBook oracle st1.vectors (passagesOf newBook.id) with
      | .error _ => st1
      | .ok vecs =>
        let st2 := { st1 with vectors := vecs,
                              indexedBooks := addIndexedBook st1.indexedBooks newBook.id }
        let st3 := existingBooks.foldl (sweepPairBody oracle passagesOf newBook.id) st2
        { st3 with pcsThreshold := st3.storeThreshold }

/-! ## JSON values and `JSON.parse` (for the classifier-response parsers) -/

/-- A parsed JSON value.  Object members are kept in first-occurrence
order; a duplicate key overwrites the value in place, as `JSON.parse`
does. -/
inductive Json where
  | null
  | bool (b : Bool)
  | num (q : ℚ)
  | str (s : String)
  | arr (elems : List Json)
  | obj (members : List (String × Json))
deriving Repr

/-- JSON insignificant whitespace (RFC 8259: space, tab, LF, CR). -/
def jsonWs (c : Char) : Bool :=
  c == ' ' || c == '\t' || c == '\n' || c == '\r'

/-- Hex digit value. -/
def hexVal (c : Char) : Option Nat :=
  if '0' ≤ c ∧ c ≤ '9' then some (c.toNat - '0'.toNat)
  else if 'a' ≤ c ∧ c ≤ 'f' then some (c.toNat - 'a'.toNat + 10)
  else if 'A' ≤ c ∧ c ≤ 'F' then some (c.toNat - 'A'.toNat + 10)
  else none

/-- Duplicate-key–aware object member insertion (`JSON.parse` keeps the
first position of a key but the last value). -/
def objInsert (ms : List (String × Json)) (k : String) (v : Json) :
    List (String × Json) :=
  if ms.any (fun kv => kv.1 == k) then
    ms.map (fun kv => if kv.1 == k then (k, v) else kv)
  else ms ++ [(k, v)]

/-- Parse the body of a JSON string, the opening quote already consumed.
Escapes per RFC 8259; a `\uXXXX` escape becomes the scalar `Char` of
that code unit (surrogate halves, which Lean's `Char` cannot carry,
degrade to the replacement behaviour of `Char.ofNat`; no claim depends
on astral characters). -/
def parseJStringBody : Nat → List Char → List Char → Option (String × List Char)
  | 0, _, _ => none
  | _ + 1, _, [] => none
  | fuel + 1, acc, c :: rest =>
    if c == '"' then some (String.mk acc.reverse, rest)
    else if c == '\\' then
      match rest with
      | [] => none
      | e :: rest2 =>
        if e == '"' then parseJStringBody fuel ('"' :: acc) rest2
        else if e == '\\' then parseJStringBody fuel ('\\' :: acc) rest2
        else if e == '/' then parseJStringBody fuel ('/' :: acc) rest2
        else if e == 'b' then parseJStringBody fuel ('\x08' :: acc) rest2
        else if e == 'f' then parseJStringBody fuel ('\x0c' :: acc) rest2
        else if e == 'n' then parseJStringBody fuel ('\n' :: acc) rest2
        else if e == 'r' then parseJStringBody fuel ('\r' :: acc) rest2
        else if e == 't' then parseJStringBody fuel ('\t' :: acc) rest2
        else if e == 'u' then
          match rest2 with
          | h1 :: h2 :: h3 :: h4 :: rest3 =>
            match hexVal h1, hexVal h2, hexVal h3, hexVal h4 with
            | some a, some b, some c_, some d =>
              parseJStringBody fuel
                (Char.ofNat (((a * 16 + b) * 16 + c_) * 16 + d) :: acc) rest3
            | _, _, _, _ => none
          | _ => none
        else none
    else if c.val < 0x20 then none
    else parseJStringBody fuel (c :: acc) rest

/-- Accumulate a run of decimal digits into a `Nat`. -/
def digitsToNat (ds : List Char) : Nat :=
  ds.foldl (fun acc d => acc * 10 + (d.toNat - '0'.toNat)) 0

/-- Parse a JSON number (grammar
`-? (0 | [1-9][0-9]*) (. [0-9]+)? ([eE][+-]?[0-9]+)?`) into an exact
rational. -/
def parseJNumber (cs : List Char) : Option (ℚ × List Char) :=
  let (sign, cs1) : ℚ × List Char :=
    match cs with
    | c :: rest => if c == '-' then (-1, rest) else (1, cs)
    | [] => (1, [])
  match cs1 with
  | [] => none
  | c :: _ =>
    if ¬ c.isDigit then none
    else
      let intDigits := if c == '0' then ['0'] else cs1.takeWhile Char.isDigit
      let cs2 := cs1.drop intDigits.length
      let hasDot : Bool := match cs2 with | d :: _ => d == '.' | [] => false
      let fracDigits := if hasDot then (cs2.drop 1).takeWhile Char.isDigit else []
      let cs3 := if hasDot then (cs2.drop 1).drop fracDigits.length else cs2
      if hasDot && fracDigits.isEmpty then none
      else
        let hasExp : Bool := match cs3 with | e :: _ => e == 'e' || e == 'E' | [] => false
        let expTail := cs3.drop 1
        let (esign, erest) : Int × List Char :=
          match expTail with
          | s :: r2 => if s == '+' then (1, r2) else if s == '-' then (-1, r2) else (1, expTail)
          | [] => (1, expTail)
        let eds := erest.takeWhile Char.isDigit
        if hasExp && eds.isEmpty then none
        else
          let expVal : Int := if hasExp then esign * (digitsToNat eds : Int) else 0
          let cs4 := if hasExp then erest.drop eds.length else cs3
          let mantissa : ℚ :=
            (digitsToNat intDigits : ℚ) +
              (digitsToNat fracDigits : ℚ) / ((10 : ℚ) ^ fracDigits.length)
          some (sign * mantissa * (10 : ℚ) ^ expVal, cs4)

mutual

/-- Recursive-descent `JSON.parse` value parser (fuel-indexed; the fuel
is at least the input length at every call from `jparse`, and every
nested value consumes at least one character, so the fuel never runs
out on inputs `jparse` passes in). -/
def parseJValue : Nat → List Char → Option (Json × List Char)
  | 0, _ => none
  | fuel + 1, cs =>
    match cs.dropWhile jsonWs with
    | [] => none
    | c :: rest =>
      if c == 'n' then
        match dropKeyword "ull".data rest with
        | some r => some (.null, r)
        | none => none
      else if c == 't' then
        match dropKeyword "rue".data rest with
        | some r => some (.bool true, r)
        | none => none
      else if c == 'f' then
        match dropKeyword "alse".data rest with
        | some r => some (.bool false, r)
        | none => none
      else if c == '"' then
        match parseJStringBody (rest.length + 1) [] rest with
        | some (s, r) => some (.str s, r)
        | none => none
      else if c == '-' ∨ c.isDigit then
        match parseJNumber (c :: rest) with
        | some (q, r) => some (.num q, r)
        | none => none
      else if c == '[' then
        match rest.dropWhile jsonWs with
        | ']' :: r => some (.arr [], r)
        | _ => parseJElems fuel rest []
      else if c == '\x7b' then
        match rest.dropWhile jsonWs with
        | '\x7d' :: r => some (.obj [], r)
        | _ => parseJMembers fuel rest []
      else none

/-- Array elements: `value (, value)* ]`. -/
def parseJElems : Nat → List Char → List Json → Option (Json × List Char)
  | 0, _, _ => none
  | fuel + 1, cs, acc =>
    match parseJValue fuel cs with
    | none => none
    | some (v, r) =>
      match r.dropWhile jsonWs with
      | ',' :: r2 => parseJElems fuel r2 (acc ++ [v])
      | ']' :: r2 => some (.arr (acc ++ [v]), r2)
      | _ => none

/-- Object members: `"key" : value (, "key" : value)* }`. -/
def parseJMembers : Nat → List Char → List (String × Json) → Option (Json × List Char)
  | 0, _, _ => none
  | fuel + 1, cs, acc =>
    match cs.dropWhile jsonWs with
    | '"' :: r =>
      match parseJStringBody (r.length + 1) [] r with
      | none => none
      | some (k, r2) =>
        match r2.dropWhile jsonWs with
        | ':' :: r3 =>
          match parseJValue fuel r3 with
          | none => none
          | some (v, r4) =>
            match r4.dropWhile jsonWs with
            | ',' :: r5 => parseJMembers fuel r5 (objInsert acc k v)
            | '\x7d' :: r5 => some (.obj (objInsert acc k v), r5)
            | _ => none
        | _ => none
    | _ => none

end

/-- `JSON.parse`: a single value, surrounded only by insignificant
whitespace. -/
def jparse (s : String) : Option Json :=
  match parseJValue (s.data.length + 1) s.data with
  | some (v, rest) => if (rest.dropWhile jsonWs).isEmpty then some v else none
  | none => none

/-- Is this JSON value `null`?  (JS member access on `null` throws.) -/
def Json.isNull : Json → Bool
  | .null => true
  | _ => false

/-- JS member access `v.k` for parsed JSON: a lookup on objects,
`undefined` (`none`) on every other non-`null` value.  (Access on
`null` throws and is handled at the call sites.) -/
def getField (v : Json) (k : String) : Option Json :=
  match v with
  | .obj ms => (ms.find? (fun kv => kv.1 == k)).map (fun kv => kv.2)
  | _ => none

/-! ## The two regular expressions of the response parsers -/

/-- The backtick character (written via its code point to keep it out
of the source text). -/
def backtick : Char := Char.ofNat 96

/-- Does the list start with three backticks? -/
def startsTicks (cs : List Char) : Bool :=
  match cs with
  | a :: b :: c :: _ => a == backtick && b == backtick && c == backtick
  | _ => false

/-- After a candidate capture: the pattern tail `\s+` followed by three
backticks.  Since whitespace and backtick are disjoint, the greedy
`\s+` can only succeed by consuming the whole whitespace run, which
must be non-empty. -/
def fenceClosingAt (u : List Char) : Bool :=
  let m := (u.takeWhile isJsWs).length
  decide (1 ≤ m) && startsTicks (u.drop m)

/-- The lazy capture `([\s\S]+?)`: try content lengths `c = 1, 2, …`
(shortest first, as a lazy quantifier does) until the closing
`\s+` + backticks follows. -/
def fenceContent (t : List Char) (c : Nat) : Option (List Char) :=
  if c ≤ t.length then
    if fenceClosingAt (t.drop c) then some (t.take c)
    else fenceContent t (c + 1)
  else none
termination_by t.length + 1 - c

/-- The greedy `\s+` before the capture: try the whitespace-run lengths
`w1 = max, max-1, …, 1` (longest first, as a greedy quantifier does). -/
def fenceTryW (rest : List Char) : Nat → Option (List Char)
  | 0 => none
  | w + 1 =>
    match fenceContent (rest.drop (w + 1)) 1 with
    | some content => some content
    | none => fenceTryW rest w

/-- Match `\s+([\s\S]+?)\s+` + backticks against `rest`, returning the
capture. -/
def fenceTail (rest : List Char) : Option (List Char) :=
  fenceTryW rest (rest.takeWhile isJsWs).length

/-- Match the whole fence pattern at a position starting with three
backticks: the optional greedy `(?:json)?` is tried consumed first,
then unconsumed. -/
def fenceFrom (cs : List Char) : Option (List Char) :=
  let afterTicks := cs.drop 3
  match
    (match dropKeyword "json".data afterTicks with
     | some r => fenceTail r
     | none => none)
  with
  | some content => some content
  | none => fenceTail afterTicks

/-- Leftmost-match scan for
```regex
(three backticks)(?:json)?\s+([\s\S]+?)\s+(three backticks)
```
— the `response.match(...)` at `passageComparisonService.ts` line 393,
returning capture group 1. -/
def scanFence : List Char → Option (List Char)
  | [] => none
  | c :: tl =>
    match (if startsTicks (c :: tl) then fenceFrom (c :: tl) else none) with
    | some content => some content
    | none => scanFence tl

/-- Capture group 1 of the markdown-fence regex on a string. -/
def fenceCapture (s : String) : Option String :=
  (scanFence s.data).map (fun cs => String.mk cs)

/-- The regex `(\[[\s\S]*\])` (line 400): by leftmost-greedy semantics
this matches from the first `[` through the last `]`, provided the
last `]` comes after the first `[`. -/
def bracketSlice (s : String) : Option String :=
  let cs := s.data
  match cs.findIdx? (fun c => c == '[') with
  | none => none
  | some i =>
    match cs.reverse.findIdx? (fun c => c == ']') with
    | none => none
    | some rj =>
      let j := cs.length - 1 - rj
      if i < j then some (String.mk ((cs.drop i).take (j - i + 1))) else none

/-! ## The classifier-response parsers (`passageComparisonService.ts`) -/

/-- A typed relation record.  `relationType` and `evidence` hold the
raw parsed JSON of `item.relation` / `item.evidence` (the code casts
them without validation, so any JSON value — or `undefined`, here
`none` — can end up stored). -/
structure PassageRelation where
  focusPassageId : String
  relatedPassageId : String
  relationType : Option Json
  evidence : Option Json
  similarity : Option SimScore
deriving Repr

/-- The strategy chain of both parsers (lines 390–407 and 836–854):
extract a fenced block, else the first-`[`-to-last-`]` slice, else the
raw response, and `JSON.parse` whichever one was selected.  A parse
failure of the selected strategy is *not* retried with the next
strategy: the `throw` lands in the surrounding `catch`. -/
def parseChain (response : String) : Option Json :=
  match fenceCapture response with
  | some inner => jparse inner
  | none =>
    match bracketSlice response with
    | some sl => jparse sl
    | none => jparse response

/-- The per-item mapping of `parseRelationsFromResponse` (lines
415–437).  `item.passage_id` on a `null` item throws a `TypeError`
(`.error`), aborting the whole `map`; an item whose `passage_id` is
missing, non-string, or not among the candidate ids yields `null`
(`none`), later dropped by `.filter(Boolean)`; otherwise the relation
record is built, with the similarity looked up by candidate position
(defaulting to `0`, i.e. `some ⟨0, 1⟩`). -/
def relOfItem (focusPassageId : String) (candidatePassages : List Passage)
    (similarities : List (Option SimScore)) (item : Json) :
    Except Unit (Option PassageRelation) :=
  if item.isNull then .error ()
  else
    match getField item "passage_id" with
    | some (.str passageId) =>
      match candidatePassages.find? (fun p => p.id == passageId) with
      | none => .ok none
      | some _ =>
        let passageIndex := candidatePassages.findIdx (fun p => p.id == passageId)
        let similarity :=
          match similarities.get? passageIndex with
          | some v => v
          | none => some ⟨0, 1⟩
        .ok (some ⟨focusPassageId, passageId, getField item "relation",
                   getField item "evidence", similarity⟩)
    | _ => .ok none

/-- `parseRelationsFromResponse` (lines 382–445): run the strategy
chain; a parse failure, a non-array result, or a `TypeError` while
mapping all land in the `catch` and yield `[]`; otherwise the mapped
items with the `null`s filtered out. -/
def parseRelationsFromResponse (response focusPassageId : String)
    (candidatePassages : List Passage)
    (similarities : List (Option SimScore)) : List PassageRelation :=
  match parseChain response with
  | none => []
  | some (.arr items) =>
    match items.mapM (relOfItem focusPassageId candidatePassages similarities) with
    | .ok l => l.filterMap id
    | .error _ => []
  | some _ => []

/-- The per-item mapping of `parseFullBooksRelationsFromResponse`
(lines 866–888): both ids must be strings appearing in the respective
passage lists (`validSourceIds` / `validTargetIds`); the similarity is
the sentinel `1.0`. -/
def fullRelOfItem (sourcePassages targetPassages : List Passage) (item : Json) :
    Except Unit (Option PassageRelation) :=
  if item.isNull then .error ()
  else
    match getField item "focus_passage_id" with
    | some (.str fid) =>
      if sourcePassages.any (fun p => p.id == fid) then
        match getField item "related_passage_id" with
        | some (.str rid) =>
          if targetPassages.any (fun p => p.id == rid) then
            .ok (some ⟨fid, rid, getField item "relation_type",
                       getField item "evidence", some ⟨1, 1⟩⟩)
          else .ok none
        | _ => .ok none
      else .ok none
    | _ => .ok none

/-- `parseFullBooksRelationsFromResponse` (lines 830–896): same
strategy chain and `catch` as the retrieval-mode parser, with
validation against the full id sets of both corpora. -/
def parseFullBooksRelationsFromResponse (response : String)
    (sourcePassages targetPassages : List Passage) : List PassageRelation :=
  match parseChain response with
  | none => []
  | some (.arr items) =>
    match items.mapM (fullRelOfItem sourcePassages targetPassages) with
    | .ok l => l.filterMap id
    | .error _ => []
  | some _ => []

/-- The list of passage indices covered by a list of chapter segments,
in order: each segment `c` contributes `[c.startIdx, …, c.endIdx]`. -/
def chapterCover (chapters : List Chapter) : List Nat :=
  (chapters.map (fun c => List.range' c.startIdx (c.endIdx + 1 - c.startIdx))).flatten

/-! ## Helper lemmas -/

lemma dotProduct_self_nonneg : ∀ l : List ℚ, 0 ≤ dotProduct l l
  | [] => le_refl 0
  | a :: as => by
    have ih := dotProduct_self_nonneg as
    simp only [dotProduct]
    nlinarith [sq_nonneg a]

lemma dotProduct_comm : ∀ a b : List ℚ, dotProduct a b = dotProduct b a
  | [], [] => rfl
  | [], _ :: _ => rfl
  | _ :: _, [] => rfl
  | a :: as, b :: bs => by
    simp only [dotProduct, dotProduct_comm as bs, mul_comm a b]

/-- Every similarity the code constructs has a positive `np`. -/
lemma cosineSimilarity_np_pos {a b : List ℚ} {s : SimScore}
    (h : cosineSimilarity a b = some s) : 0 < s.np := by
  simp only [cosineSimilarity] at h
  by_cases h1 : b.length < a.length
  · simp [h1] at h
  · simp only [h1, if_false] at h
    by_cases h2 : dotProduct a a = 0 ∨ dotProduct (b.take a.length) (b.take a.length) = 0
    · simp [h2] at h
    · simp only [h2, if_false, Option.some.injEq] at h
      push_neg at h2
      have hA0 := dotProduct_self_nonneg a
      have hB0 := dotProduct_self_nonneg (b.take a.length)
      rw [← h]
      exact mul_pos (lt_of_le_of_ne hA0 (Ne.symm h2.1)) (lt_of_le_of_ne hB0 (Ne.symm h2.2))

/-- The decided comparison `simLe` agrees with the real comparison of
the denoted values `dot / √np` (for positive `np`). -/
lemma simLe_iff {x y : SimScore} (hx : 0 < x.np) (hy : 0 < y.np) :
    simLe x y = true ↔
      (x.dot : ℝ) / Real.sqrt (x.np : ℝ) ≤ (y.dot : ℝ) / Real.sqrt (y.np : ℝ) := by
  have hx' : (0 : ℝ) < (x.np : ℝ) := by exact_mod_cast hx
  have hy' : (0 : ℝ) < (y.np : ℝ) := by exact_mod_cast hy
  have hsx := Real.sqrt_pos.2 hx'
  have hsy := Real.sqrt_pos.2 hy'
  have hsx2 : Real.sqrt (x.np : ℝ) ^ 2 = (x.np : ℝ) := Real.sq_sqrt hx'.le
  have hsy2 : Real.sqrt (y.np : ℝ) ^ 2 = (y.np : ℝ) := Real.sq_sqrt hy'.le
  rw [div_le_div_iff₀ hsx hsy]
  unfold simLe
  rcases le_or_lt 0 x.dot with hdx | hdx <;> rcases le_or_lt 0 y.dot with hdy | hdy
  · have hdx' : (0 : ℝ) ≤ (x.dot : ℝ) := by exact_mod_cast hdx
    have hdy' : (0 : ℝ) ≤ (y.dot : ℝ) := by exact_mod_cast hdy
    simp only [if_pos hdx, decide_eq_true_eq, Bool.and_eq_true]
    constructor
    · rintro ⟨-, h⟩
      have h' : ((x.dot : ℝ) * Real.sqrt (y.np : ℝ)) ^ 2 ≤
          ((y.dot : ℝ) * Real.sqrt (x.np : ℝ)) ^ 2 := by
        have hc : ((x.dot : ℝ)) ^ 2 * (y.np : ℝ) ≤ ((y.dot : ℝ)) ^ 2 * (x.np : ℝ) := by
          exact_mod_cast h
        calc ((x.dot : ℝ) * Real.sqrt (y.np : ℝ)) ^ 2
            = (x.dot : ℝ) ^ 2 * (y.np : ℝ) := by rw [mul_pow, hsy2]
          _ ≤ (y.dot : ℝ) ^ 2 * (x.np : ℝ) := hc
          _ = ((y.dot : ℝ) * Real.sqrt (x.np : ℝ)) ^ 2 := by rw [mul_pow, hsx2]
      exact le_of_pow_le_pow_left₀ two_ne_zero (mul_nonneg hdy' hsx.le) h'
    · intro h
      refine ⟨hdy, ?_⟩
      have h' := pow_le_pow_left₀ (mul_nonneg hdx' hsy.le) h 2
      rw [mul_pow, mul_pow, hsx2, hsy2] at h'
      exact_mod_cast h'
  · have hdy' : (y.dot : ℝ) < 0 := by exact_mod_cast hdy
    have hdx' : (0 : ℝ) ≤ (x.dot : ℝ) := by exact_mod_cast hdx
    simp only [if_pos hdx, decide_eq_true_eq, Bool.and_eq_true]
    constructor
    · rintro ⟨h, -⟩
      exact absurd h (not_le.2 hdy)
    · intro h
      exfalso
      have hneg : (y.dot : ℝ) * Real.sqrt (x.np : ℝ) < 0 := mul_neg_of_neg_of_pos hdy' hsx
      have hpos : (0 : ℝ) ≤ (x.dot : ℝ) * Real.sqrt (y.np : ℝ) := mul_nonneg hdx' hsy.le
      linarith
  · have hdx' : (x.dot : ℝ) < 0 := by exact_mod_cast hdx
    have hdy' : (0 : ℝ) ≤ (y.dot : ℝ) := by exact_mod_cast hdy
    simp only [if_neg (not_le.2 hdx), decide_eq_true_eq, Bool.or_eq_true]
    constructor
    · intro _
      exact le_trans (le_of_lt (mul_neg_of_neg_of_pos hdx' hsy))
        (mul_nonneg hdy' hsx.le)
    · intro _
      exact Or.inl hdy
  · have hdx' : (x.dot : ℝ) < 0 := by exact_mod_cast hdx
    have hdy' : (y.dot : ℝ) < 0 := by exact_mod_cast hdy
    simp only [if_neg (not_le.2 hdx), decide_eq_true_eq, Bool.or_eq_true]
    constructor
    · rintro (h | h)
      · exact absurd h (not_le.2 hdy)
      · have hc : ((y.dot : ℝ)) ^ 2 * (x.np : ℝ) ≤ ((x.dot : ℝ)) ^ 2 * (y.np : ℝ) := by
          exact_mod_cast h
        have h' : ((-(y.dot : ℝ)) * Real.sqrt (x.np : ℝ)) ^ 2 ≤
            ((-(x.dot : ℝ)) * Real.sqrt (y.np : ℝ)) ^ 2 := by
          calc ((-(y.dot : ℝ)) * Real.sqrt (x.np : ℝ)) ^ 2
              = (y.dot : ℝ) ^ 2 * (x.np : ℝ) := by rw [mul_pow, hsx2]; ring
            _ ≤ (x.dot : ℝ) ^ 2 * (y.np : ℝ) := hc
            _ = ((-(x.dot : ℝ)) * Real.sqrt (y.np : ℝ)) ^ 2 := by rw [mul_pow, hsy2]; ring
        have := le_of_pow_le_pow_left₀ two_ne_zero
          (mul_nonneg (neg_nonneg.2 hdx'.le) hsy.le) h'
        linarith
    · intro h
      refine Or.inr ?_
      have h' : (-(y.dot : ℝ)) * Real.sqrt (x.np : ℝ) ≤
          (-(x.dot : ℝ)) * Real.sqrt (y.np : ℝ) := by linarith
      have h2 := pow_le_pow_left₀
        (mul_nonneg (neg_nonneg.2 hdy'.le) hsx.le) h' 2
      rw [mul_pow, mul_pow, hsx2, hsy2, neg_pow, neg_pow] at h2
      simp only [neg_neg, one_mul, pow_succ, pow_zero] at h2
      have h3 : ((y.dot : ℝ)) ^ 2 * (x.np : ℝ) ≤ ((x.dot : ℝ)) ^ 2 * (y.np : ℝ) := by
        nlinarith [h2]
      exact_mod_cast h3

/-- The decided comparison `simGe` agrees with the real comparison of
the denoted value `dot / √np` against the rational threshold (for
positive `np`). -/
lemma simGe_iff {s : SimScore} (t : ℚ) (h : 0 < s.np) :
    simGe s t = true ↔ (t : ℝ) ≤ (s.dot : ℝ) / Real.sqrt (s.np : ℝ) := by
  have hp : (0 : ℝ) < (s.np : ℝ) := by exact_mod_cast h
  have hs := Real.sqrt_pos.2 hp
  have hs2 : Real.sqrt (s.np : ℝ) ^ 2 = (s.np : ℝ) := Real.sq_sqrt hp.le
  rw [le_div_iff₀ hs]
  unfold simGe
  rcases le_or_lt 0 s.dot with hd | hd
  · have hd' : (0 : ℝ) ≤ (s.dot : ℝ) := by exact_mod_cast hd
    simp only [if_pos hd, decide_eq_true_eq, Bool.or_eq_true]
    constructor
    · rintro (ht | hsq)
      · have ht' : (t : ℝ) ≤ 0 := by exact_mod_cast ht
        exact le_trans (mul_nonpos_of_nonpos_of_nonneg ht' hs.le) hd'
      · rcases le_or_lt (t : ℝ) 0 with ht | ht
        · exact le_trans (mul_nonpos_of_nonpos_of_nonneg ht hs.le) hd'
        · have hc : ((t : ℝ)) ^ 2 * (s.np : ℝ) ≤ ((s.dot : ℝ)) ^ 2 := by exact_mod_cast hsq
          have h' : ((t : ℝ) * Real.sqrt (s.np : ℝ)) ^ 2 ≤ ((s.dot : ℝ)) ^ 2 := by
            rw [mul_pow, hs2]; exact hc
          exact le_of_pow_le_pow_left₀ two_ne_zero hd' h'
    · intro hle
      rcases le_or_lt t 0 with ht | ht
      · exact Or.inl ht
      · refine Or.inr ?_
        have ht' : (0 : ℝ) < (t : ℝ) := by exact_mod_cast ht
        have h' := pow_le_pow_left₀ (mul_nonneg ht'.le hs.le) hle 2
        rw [mul_pow, hs2] at h'
        exact_mod_cast h'
  · have hd' : (s.dot : ℝ) < 0 := by exact_mod_cast hd
    simp only [if_neg (not_le.2 hd), decide_eq_true_eq, Bool.and_eq_true]
    constructor
    · rintro ⟨ht, hsq⟩
      have ht' : (t : ℝ) ≤ 0 := by exact_mod_cast ht
      have hc : ((s.dot : ℝ)) ^ 2 ≤ ((t : ℝ)) ^ 2 * (s.np : ℝ) := by exact_mod_cast hsq
      have h' : ((-(s.dot : ℝ))) ^ 2 ≤ ((-(t : ℝ)) * Real.sqrt (s.np : ℝ)) ^ 2 := by
        rw [mul_pow, hs2, neg_pow, neg_pow]
        simp only [neg_neg, one_mul, pow_succ, pow_zero]
        nlinarith [hc]
      have h2 := le_of_pow_le_pow_left₀ two_ne_zero
        (mul_nonneg (neg_nonneg.2 ht') hs.le) h'
      linarith
    · intro hle
      have ht : t ≤ 0 := by
        by_contra hc
        push_neg at hc
        have ht' : (0 : ℝ) < (t : ℝ) := by exact_mod_cast hc
        nlinarith [mul_pos ht' hs]
      refine ⟨ht, ?_⟩
      have ht' : (t : ℝ) ≤ 0 := by exact_mod_cast ht
      have h' : (-(s.dot : ℝ)) ≤ (-(t : ℝ)) * Real.sqrt (s.np : ℝ) := by linarith
      have h2 := pow_le_pow_left₀ (neg_nonneg.2 hd'.le) h' 2
      rw [mul_pow, hs2, neg_pow, neg_pow] at h2
      simp only [neg_neg, one_mul, pow_succ, pow_zero] at h2
      have h3 : ((s.dot : ℝ)) ^ 2 ≤ ((t : ℝ)) ^ 2 * (s.np : ℝ) := by nlinarith [h2]
      exact_mod_cast h3

lemma simLe_total {x y : SimScore} (hx : 0 < x.np) (hy : 0 < y.np) :
    simLe x y = true ∨ simLe y x = true := by
  rcases le_total ((x.dot : ℝ) / Real.sqrt (x.np : ℝ)) ((y.dot : ℝ) / Real.sqrt (y.np : ℝ))
    with h | h
  · exact Or.inl ((simLe_iff hx hy).2 h)
  · exact Or.inr ((simLe_iff hy hx).2 h)

lemma simLe_trans {x y z : SimScore} (hx : 0 < x.np) (hy : 0 < y.np) (hz : 0 < z.np)
    (h1 : simLe x y = true) (h2 : simLe y z = true) : simLe x z = true :=
  (simLe_iff hx hz).2 (le_trans ((simLe_iff hx hy).1 h1) ((simLe_iff hy hz).1 h2))

/-- Threshold monotonicity along the order: anything at least as
similar as a candidate meeting the threshold also meets it. -/
lemma simGe_of_simLe {x y : SimScore} {t : ℚ} (hx : 0 < x.np) (hy : 0 < y.np)
    (hle : simLe y x = true) (hge : simGe y t = true) : simGe x t = true :=
  (simGe_iff t hx).2 (le_trans ((simGe_iff t hy).1 hge) ((simLe_iff hy hx).1 hle))

/-! ### Stable-sort lemmas -/

lemma jsOrderedInsert_perm (keep : α → α → Bool) (x : α) :
    ∀ l : List α, List.Perm (jsOrderedInsert keep x l) (x :: l)
  | [] => List.Perm.refl _
  | y :: ys => by
    unfold jsOrderedInsert
    split
    · exact List.Perm.refl _
    · exact ((jsOrderedInsert_perm keep x ys).cons y).trans (List.Perm.swap x y ys)

lemma jsSort_perm (keep : α → α → Bool) : ∀ l : List α, List.Perm (jsSort keep l) l
  | [] => List.Perm.refl _
  | x :: xs =>
    (jsOrderedInsert_perm keep x (jsSort keep xs)).trans ((jsSort_perm keep xs).cons x)

lemma mem_jsSort {keep : α → α → Bool} {l : List α} {a : α} :
    a ∈ jsSort keep l ↔ a ∈ l :=
  (jsSort_perm keep l).mem_iff

lemma jsOrderedInsert_pairwise {keep : α → α → Bool} {P : α → Prop}
    (htotal : ∀ a b, P a → P b → keep a b = true ∨ keep b a = true)
    (htrans : ∀ a b c, P a → P b → P c → keep a b = true → keep b c = true →
      keep a c = true)
    {x : α} (hx : P x) :
    ∀ {l : List α}, (∀ y ∈ l, P y) →
      l.Pairwise (fun a b => keep a b = true) →
      (jsOrderedInsert keep x l).Pairwise (fun a b => keep a b = true)
  | [], _, _ => List.pairwise_singleton _ _
  | y :: ys, hl, hp => by
    unfold jsOrderedInsert
    rcases List.pairwise_cons.1 hp with ⟨hy_ys, hys⟩
    split
    next hkeep =>
      refine List.pairwise_cons.2 ⟨?_, hp⟩
      intro z hz
      rcases List.mem_cons.1 hz with hz | hz
      · subst hz
        exact hkeep
      · exact htrans x y z hx (hl y (List.mem_cons_self y ys))
          (hl z (List.mem_cons_of_mem y hz)) hkeep (hy_ys z hz)
    next hkeep =>
      refine List.pairwise_cons.2 ⟨?_, ?_⟩
      · intro z hz
        have hz2 := ((jsOrderedInsert_perm keep x ys).mem_iff).1 hz
        rcases List.mem_cons.1 hz2 with hz3 | hz3
        · subst hz3
          rcases htotal z y hx (hl y (List.mem_cons_self y ys)) with h | h
          · exact absurd h (by simpa using hkeep)
          · exact h
        · exact hy_ys z hz3
      · exact jsOrderedInsert_pairwise htotal htrans hx
          (fun z hz => hl z (List.mem_cons_of_mem y hz)) hys

lemma jsSort_pairwise {keep : α → α → Bool} {P : α → Prop}
    (htotal : ∀ a b, P a → P b → keep a b = true ∨ keep b a = true)
    (htrans : ∀ a b c, P a → P b → P c → keep a b = true → keep b c = true →
      keep a c = true) :
    ∀ {l : List α}, (∀ y ∈ l, P y) →
      (jsSort keep l).Pairwise (fun a b => keep a b = true)
  | [], _ => List.Pairwise.nil
  | x :: xs, hl => by
    unfold jsSort
    exact jsOrderedInsert_pairwise htotal htrans (hl x (List.mem_cons_self x xs))
      (fun z hz => hl z (List.mem_cons_of_mem x ((jsSort_perm keep xs).mem_iff.1 hz)))
      (jsSort_pairwise htotal htrans (fun z hz => hl z (List.mem_cons_of_mem x hz)))

/-- On a list sorted by `keep`, filtering with a predicate that is
upward-closed along `keep` is the same as taking the initial run. -/
lemma filter_eq_takeWhile_of_pairwise {keep : α → α → Bool} {P : α → Prop}
    {ge : α → Bool}
    (hmono : ∀ a b, P a → P b → keep a b = true → ge b = true → ge a = true) :
    ∀ {l : List α}, (∀ y ∈ l, P y) →
      l.Pairwise (fun a b => keep a b = true) →
      l.filter ge = l.takeWhile ge
  | [], _, _ => rfl
  | x :: xs, hl, hp => by
    rcases List.pairwise_cons.1 hp with ⟨hx_xs, hxs⟩
    by_cases hgx : ge x = true
    · simp only [List.filter_cons, List.takeWhile_cons, hgx, if_pos]
      rw [filter_eq_takeWhile_of_pairwise hmono
        (fun z hz => hl z (List.mem_cons_of_mem x hz)) hxs]
    · have hnone : ∀ y ∈ xs, ¬ ge y = true := by
        intro y hy hgy
        exact hgx (hmono x y (hl x (List.mem_cons_self x xs))
          (hl y (List.mem_cons_of_mem x hy)) (hx_xs y hy) hgy)
      have h1 : List.filter ge (x :: xs) = [] := by
        rw [List.filter_eq_nil_iff]
        intro a ha
        rcases List.mem_cons.1 ha with ha | ha
        · subst ha
          exact hgx
        · exact hnone a ha
      have h2 : List.takeWhile ge (x :: xs) = [] := by
        simp [List.takeWhile_cons, hgx]
      rw [h1, h2]

lemma takeWhile_take_comm (p : α → Bool) :
    ∀ (l : List α) (k : Nat), (l.take k).takeWhile p = (l.takeWhile p).take k
  | [], k => by simp
  | _ :: _, 0 => by simp
  | x :: xs, k + 1 => by
    by_cases hx : p x = true
    · simp only [List.take_succ_cons, List.takeWhile_cons, hx, if_pos]
      rw [takeWhile_take_comm p xs k]
    · simp [List.take_succ_cons, List.takeWhile_cons, hx]

/-- `filter` past a `take` on a sorted list: the threshold-then-cap and
cap-then-threshold orders agree. -/
lemma take_filter_comm {keep : α → α → Bool} {P : α → Prop} {ge : α → Bool}
    (hmono : ∀ a b, P a → P b → keep a b = true → ge b = true → ge a = true)
    {l : List α} (hl : ∀ y ∈ l, P y)
    (hp : l.Pairwise (fun a b => keep a b = true)) (k : Nat) :
    (l.take k).filter ge = (l.filter ge).take k := by
  have h1 : (l.take k).filter ge = (l.take k).takeWhile ge :=
    filter_eq_takeWhile_of_pairwise hmono
      (fun y hy => hl y (List.mem_of_mem_take hy))
      (hp.sublist (List.take_sublist k l))
  have h2 : l.filter ge = l.takeWhile ge :=
    filter_eq_takeWhile_of_pairwise hmono hl hp
  rw [h1, h2, takeWhile_take_comm]

/-! ### State-model helper lemmas -/

lemma hasVectors_iff {store : List PassageVector} {bookId : String} :
    hasVectors store bookId = true ↔ ∃ v ∈ store, v.bookId = bookId := by
  unfold hasVectors getBookVectors
  constructor
  · intro h
    have hne : store.filter (fun pv => pv.bookId == bookId) ≠ [] := by
      intro hnil
      rw [hnil] at h
      simp at h
    rcases List.exists_mem_of_ne_nil _ hne with ⟨v, hv⟩
    rcases List.mem_filter.1 hv with ⟨hv1, hv2⟩
    exact ⟨v, hv1, by simpa using hv2⟩
  · rintro ⟨v, hv, hb⟩
    have hmem : v ∈ store.filter (fun pv => pv.bookId == bookId) :=
      List.mem_filter.2 ⟨hv, by simpa using hb⟩
    cases hfe : store.filter (fun pv => pv.bookId == bookId) with
    | nil =>
      rw [hfe] at hmem
      exact absurd hmem (List.not_mem_nil v)
    | cons a as => simp [hfe]

lemma mem_mapSet_self (store : List PassageVector) (pv : PassageVector) :
    pv ∈ mapSet store pv := by
  unfold mapSet
  split
  next hany =>
    rcases List.any_eq_true.1 hany with ⟨q, hq, hqe⟩
    exact List.mem_map.2 ⟨q, hq, by simp [hqe]⟩
  next => exact List.mem_append_right _ (List.mem_singleton.2 rfl)

lemma mapSet_preserves_book {store : List PassageVector} {pv v : PassageVector}
    {bid : String} (hv : v ∈ store) (hvb : v.bookId = bid) (hpb : pv.bookId = bid) :
    ∃ w ∈ mapSet store pv, w.bookId = bid := by
  unfold mapSet
  split
  next =>
    by_cases hid : v.passageId == pv.passageId
    · exact ⟨pv, List.mem_map.2 ⟨v, hv, by simp [hid]⟩, hpb⟩
    · exact ⟨v, List.mem_map.2 ⟨v, hv, by simp [hid]⟩, hvb⟩
  next => exact ⟨v, List.mem_append_left _ hv, hvb⟩

/-- After `processPassages`, a vector of the given book exists provided
one existed before or some passage of that book got an embedding. -/
lemma processPassages_has_book {oracle : String → Option (List ℚ)} {bid : String} :
    ∀ {passages : List Passage} {store : List PassageVector},
      (∀ p ∈ passages, p.bookId = bid) →
      ((∃ v ∈ store, v.bookId = bid) ∨ ∃ p ∈ passages, (oracle p.text).isSome) →
      ∃ v ∈ processPassages oracle store passages, v.bookId = bid
  | [], store, _, h => by
    rcases h with h | ⟨p, hp, _⟩
    · exact h
    · exact absurd hp (List.not_mem_nil p)
  | p :: ps, store, hb, h => by
    unfold processPassages
    simp only [List.foldl_cons]
    rcases horacle : oracle p.text with _ | v
    · have : processPassages oracle store ps =
        List.foldl _ store ps := rfl
      rcases h with h | ⟨q, hq, hqs⟩
      · exact processPassages_has_book
          (fun q hq => hb q (List.mem_cons_of_mem p hq)) (Or.inl h)
      · rcases List.mem_cons.1 hq with hq | hq
        · subst hq
          rw [horacle] at hqs
          exact absurd hqs (by simp)
        · exact processPassages_has_book
            (fun r hr => hb r (List.mem_cons_of_mem p hr)) (Or.inr ⟨q, hq, hqs⟩)
    · refine processPassages_has_book
        (fun q hq => hb q (List.mem_cons_of_mem p hq)) (Or.inl ?_)
      exact ⟨⟨p.id, p.bookId, v⟩,
        mem_mapSet_self store ⟨p.id, p.bookId, v⟩, hb p (List.mem_cons_self p ps)⟩

/-- If every embedding fails, `processPassages` leaves the store unchanged. -/
lemma processPassages_all_fail {oracle : String → Option (List ℚ)} :
    ∀ {passages : List Passage} {store : List PassageVector},
      (∀ p ∈ passages, oracle p.text = none) →
      processPassages oracle store passages = store
  | [], _, _ => rfl
  | p :: ps, store, h => by
    unfold processPassages
    simp only [List.foldl_cons, h p (List.mem_cons_self p ps)]
    exact processPassages_all_fail (fun q hq => h q (List.mem_cons_of_mem p hq))

lemma addIndexedBook_contains (l : List String) (b : String) :
    (addIndexedBook l b).contains b = true := by
  unfold addIndexedBook
  split
  next h => exact h
  next => simp

/-! ### `mapM` and parse-chain helpers -/

lemma mapM_ok_mem {f : Json → Except Unit (Option PassageRelation)} :
    ∀ {items : List Json} {l : List (Option PassageRelation)},
      items.mapM f = .ok l → ∀ x ∈ l, ∃ item ∈ items, f item = .ok x
  | [], l, h, x, hx => by
    simp only [List.mapM_nil, pure, Except.pure] at h
    cases h
    exact absurd hx (List.not_mem_nil x)
  | i :: is, l, h, x, hx => by
    simp only [List.mapM_cons, pure, Except.pure, bind, Except.bind] at h
    rcases hfi : f i with e | y
    · rw [hfi] at h
      cases h
    · rw [hfi] at h
      rcases hrest : is.mapM f with e | ys
      · rw [hrest] at h
        cases h
      · rw [hrest] at h
        cases h
        rcases List.mem_cons.1 hx with hx | hx
        · exact ⟨i, List.mem_cons_self i is, by rw [hfi, hx]⟩
        · rcases mapM_ok_mem hrest x hx with ⟨item, hitem, hfx⟩
          exact ⟨item, List.mem_cons_of_mem i hitem, hfx⟩

/-- When the selected strategy's parse fails, both response parsers are
in their `catch` with the empty list. -/
lemma parseChain_eq_none {r : String}
    (h1 : ∀ inner, fenceCapture r = some inner → jparse inner = none)
    (h2 : ∀ sl, bracketSlice r = some sl → jparse sl = none)
    (h3 : jparse r = none) : parseChain r = none := by
  unfold parseChain
  rcases hf : fenceCapture r with _ | inner
  · rcases hb : bracketSlice r with _ | sl
    · exact h3
    · exact h2 sl hb
  · exact h1 inner hf

/-! ### Chapter-estimation helper lemmas -/

lemma chapterCover_append_single (acc : List Chapter) (c : Chapter) :
    chapterCover (acc ++ [c]) =
      chapterCover acc ++ List.range' c.startIdx (c.endIdx + 1 - c.startIdx) := by
  simp [chapterCover]

lemma range_append_tail {cs i : Nat} (h1 : cs ≤ i) (h2 : 1 ≤ i) :
    List.range cs ++ List.range' cs (i - 1 + 1 - cs) = List.range i := by
  have he : i - 1 + 1 - cs = i - cs := by omega
  rw [he, List.range_eq_range', List.range_eq_range']
  have := List.range'_append 0 cs (i - cs) 1
  simp only [one_mul, Nat.zero_add] at this
  rw [this]
  congr 1
  omega

/-- Loop invariant of `chaptersLoop`: the accumulated segments cover
exactly the indices below `chapterStart`, and the final `chapterStart`
stays below `n`. -/
lemma chaptersLoop_invariant (passages : List Passage) (n i cs : Nat)
    (acc : List Chapter) (hcsi : cs ≤ i) (hcs : cs < n)
    (hacc : chapterCover acc = List.range cs) :
    (chaptersLoop passages n i cs acc).1 < n ∧
      chapterCover (chaptersLoop passages n i cs acc).2 =
        List.range (chaptersLoop passages n i cs acc).1 := by
  rw [chaptersLoop]
  by_cases h : i < n
  · rw [dif_pos h]
    by_cases hb :
        isChapterBoundary n i (passages.getD i ⟨"", "", 0, 0, ""⟩) = true
    · rw [if_pos hb]
      by_cases hlt : cs < i
      · rw [if_pos hlt]
        refine chaptersLoop_invariant passages n (i + 1) i _ (by omega) h ?_
        rw [chapterCover_append_single, hacc]
        exact range_append_tail (by omega) (by omega)
      · have hei : cs = i := le_antisymm hcsi (not_lt.1 hlt)
        rw [if_neg hlt]
        exact chaptersLoop_invariant passages n (i + 1) i acc (by omega) h (hei ▸ hacc)
    · rw [if_neg hb]
      exact chaptersLoop_invariant passages n (i + 1) cs acc (by omega) hcs hacc
  · rw [dif_neg h]
    exact ⟨hcs, hacc⟩
termination_by n - i
decreasing_by all_goals omega

/-! ## Claim theorems -/

/-- C9 (amended): cosine similarity as computed by `cosineSimilarity`
is symmetric for vectors of *equal* length (for different lengths it is
not — see the counterexample), and `sim(a,a)` denotes the real number
`1` whenever it is defined (which, in exact arithmetic, is exactly when
`a` is non-zero). -/
theorem c9_cosine_symm_self_one :
    (∀ a b : List ℚ, a.length = b.length →
      cosineSimilarity a b = cosineSimilarity b a) ∧
    (∀ (a : List ℚ) (s : SimScore), cosineSimilarity a a = some s →
      (s.dot : ℝ) / Real.sqrt ((s.np : ℝ)) = 1) := by
  constructor
  · intro a b h
    simp only [cosineSimilarity]
    rw [if_neg (show ¬ b.length < a.length by omega),
      if_neg (show ¬ a.length < b.length by omega)]
    have hb : b.take a.length = b := by rw [h]; exact List.take_length b
    have ha : a.take b.length = a := by rw [← h]; exact List.take_length a
    rw [hb, ha, dotProduct_comm a b]
    by_cases hz : dotProduct a a = 0 ∨ dotProduct b b = 0
    · rw [if_pos hz, if_pos (Or.symm hz)]
    · rw [if_neg hz, if_neg (fun hc => hz (Or.symm hc)), mul_comm]
  · intro a s h
    simp only [cosineSimilarity] at h
    rw [if_neg (show ¬ a.length < a.length by omega)] at h
    rw [List.take_length] at h
    by_cases hz : dotProduct a a = 0 ∨ dotProduct a a = 0
    · rw [if_pos hz] at h
      cases h
    · rw [if_neg hz] at h
      injection h with h
      subst h
      have hnz : dotProduct a a ≠ 0 := fun hc => hz (Or.inl hc)
      have hpos : 0 < dotProduct a a :=
        lt_of_le_of_ne (dotProduct_self_nonneg a) (Ne.symm hnz)
      have hpos' : (0 : ℝ) < ((dotProduct a a : ℚ) : ℝ) := by exact_mod_cast hpos
      show ((dotProduct a a : ℚ) : ℝ) /
        Real.sqrt (((dotProduct a a * dotProduct a a : ℚ)) : ℝ) = 1
      push_cast
      rw [Real.sqrt_mul_self hpos'.le]
      exact div_self (ne_of_gt hpos')

/-- C9 counterexample: for vectors of different lengths the symmetry
claimed for *all* vector pairs fails — `sim([1],[1,1])` is the defined
value `1` while `sim([1,1],[1])` is `NaN` (the loop reads `vecB[1]`,
which is `undefined`). -/
theorem c9_counterexample :
    cosineSimilarity [(1 : ℚ)] [1, 1] = some ⟨1, 1⟩ ∧
    cosineSimilarity [(1 : ℚ), 1] [1] = none ∧
    cosineSimilarity [(1 : ℚ)] [1, 1] ≠ cosineSimilarity [(1 : ℚ), 1] [1] := by
  have h1 : cosineSimilarity [(1 : ℚ)] [1, 1] = some ⟨1, 1⟩ := by
    norm_num [cosineSimilarity, dotProduct]
  have h2 : cosineSimilarity [(1 : ℚ), 1] [1] = none := by
    norm_num [cosineSimilarity]
  exact ⟨h1, h2, by rw [h1, h2]; simp⟩

/-- C9 witness: the amended theorem applied at `[1,2] / [3,4]` and at
`[3,4]` against itself. -/
theorem c9_witness :
    cosineSimilarity [(1 : ℚ), 2] [3, 4] = cosineSimilarity [3, 4] [(1 : ℚ), 2] ∧
    (cosineSimilarity [(3 : ℚ), 4] [3, 4] = some ⟨25, 625⟩ ∧
      (((25 : ℚ) : ℝ) / Real.sqrt (((625 : ℚ)) : ℝ) = 1)) :=
  ⟨c9_cosine_symm_self_one.1 [1, 2] [3, 4] rfl,
   by norm_num [cosineSimilarity, dotProduct],
   c9_cosine_symm_self_one.2 [3, 4] ⟨25, 625⟩
     (by norm_num [cosineSimilarity, dotProduct])⟩

/-- C2 (amended): the vector-index query `findSimilarPassages` does
*not* exclude candidates with undefined (`NaN`) cosine similarity —
see the counterexample; they are only removed downstream, by the
`similarity >= threshold` filter of the candidate selection, which an
undefined similarity never passes.  Hence no candidate selected by
`selectCandidates` carries an undefined similarity. -/
theorem c2_nan_excluded_only_by_threshold
    (oracle : String → Option (List ℚ)) (store : List PassageVector)
    (qp : Passage) (tid : String) (topK : Nat) (t : ℚ)
    (res : List (String × Option SimScore))
    (h : selectCandidates oracle store qp tid topK t = .ok res) :
    ∀ c ∈ res, c.2 ≠ none := by
  unfold selectCandidates at h
  cases hfs : findSimilarPassages oracle store qp tid topK with
  | error e =>
    rw [hfs] at h
    simp [Except.map] at h
  | ok l =>
    rw [hfs] at h
    simp only [Except.map, Except.ok.injEq] at h
    subst h
    intro c hc
    have := (List.mem_filter.1 hc).2
    cases hcs : c.2 with
    | none => rw [hcs] at this; simp [jsNumGe] at this
    | some s => simp [hcs]

/-- C2 counterexample: with a single stored zero vector, the query
returns that candidate with similarity `NaN` (`none`) — an undefined
similarity is *not* excluded from the query results, contradicting the
claim. -/
theorem c2_counterexample :
    cosineSimilarity [(1 : ℚ)] [0] = none ∧
    findSimilarPassages (fun _ => some [(1 : ℚ)]) [⟨"z", "B", [0]⟩]
      ⟨"q", "q", 0, 0, "A"⟩ "B" 5 = .ok [("z", none)] := by
  have hcos : cosineSimilarity [(1 : ℚ)] [0] = none := by
    norm_num [cosineSimilarity, dotProduct]
  refine ⟨hcos, ?_⟩
  simp [findSimilarPassages, getBookVectors, jsSort, jsOrderedInsert, hcos]

/-- C2 witness: the amended theorem applied to a store holding one zero
vector and one unit vector. -/
theorem c2_witness :
    selectCandidates (fun _ => some [(1 : ℚ)])
        [⟨"z", "B", [0]⟩, ⟨"g", "B", [1]⟩] ⟨"q", "q", 0, 0, "A"⟩ "B" 5 (1 / 2) =
      .ok [("g", some ⟨1, 1⟩)] ∧
    ∀ c ∈ [(("g" : String), some (⟨1, 1⟩ : SimScore))], c.2 ≠ none := by
  have hcos0 : cosineSimilarity [(1 : ℚ)] [0] = none := by
    norm_num [cosineSimilarity, dotProduct]
  have hcos1 : cosineSimilarity [(1 : ℚ)] [1] = some ⟨1, 1⟩ := by
    norm_num [cosineSimilarity, dotProduct]
  have h : selectCandidates (fun _ => some [(1 : ℚ)])
      [⟨"z", "B", [0]⟩, ⟨"g", "B", [1]⟩] ⟨"q", "q", 0, 0, "A"⟩ "B" 5 (1 / 2) =
      .ok [("g", some ⟨1, 1⟩)] := by
    simp [selectCandidates, findSimilarPassages, getBookVectors, jsSort,
      jsOrderedInsert, jsSortKeep, jsNumGe, simGe, simLe, hcos0, hcos1, Except.map]
    norm_num
  exact ⟨h, c2_nan_excluded_only_by_threshold _ _ _ _ _ _ _ h⟩

/-- C10: `setAutoSimilarityThreshold` updates the stored value exactly
when `0 ≤ t ≤ 1` and leaves it unchanged otherwise; consequently, after
any sequence of calls starting from the initial `0.5`, the stored
threshold remains in `[0, 1]`. -/
theorem c10_auto_threshold :
    (∀ cur t : ℚ,
      ((0 ≤ t ∧ t ≤ 1) → setAutoSimilarityThreshold cur t = t) ∧
      (¬(0 ≤ t ∧ t ≤ 1) → setAutoSimilarityThreshold cur t = cur)) ∧
    (∀ ts : List ℚ,
      0 ≤ ts.foldl setAutoSimilarityThreshold initialAutoSimilarityThreshold ∧
      ts.foldl setAutoSimilarityThreshold initialAutoSimilarityThreshold ≤ 1) := by
  have hstep : ∀ cur t : ℚ,
      ((0 ≤ t ∧ t ≤ 1) → setAutoSimilarityThreshold cur t = t) ∧
      (¬(0 ≤ t ∧ t ≤ 1) → setAutoSimilarityThreshold cur t = cur) := by
    intro cur t
    constructor
    · intro h
      simp [setAutoSimilarityThreshold, h]
    · intro h
      simp [setAutoSimilarityThreshold, h]
  refine ⟨hstep, ?_⟩
  have key : ∀ (ts : List ℚ) (cur : ℚ), 0 ≤ cur → cur ≤ 1 →
      0 ≤ ts.foldl setAutoSimilarityThreshold cur ∧
      ts.foldl setAutoSimilarityThreshold cur ≤ 1 := by
    intro ts
    induction ts with
    | nil => exact fun cur h0 h1 => ⟨h0, h1⟩
    | cons t ts ih =>
      intro cur h0 h1
      simp only [List.foldl_cons]
      by_cases ht : 0 ≤ t ∧ t ≤ 1
      · rw [(hstep cur t).1 ht]
        exact ih t ht.1 ht.2
      · rw [(hstep cur t).2 ht]
        exact ih cur h0 h1
  intro ts
  exact key ts initialAutoSimilarityThreshold
    (by norm_num [initialAutoSimilarityThreshold])
    (by norm_num [initialAutoSimilarityThreshold])

/-- C10 witness: an in-range call updates, an out-of-range call leaves
the value unchanged, and a mixed call sequence stays within `[0, 1]`. -/
theorem c10_witness :
    setAutoSimilarityThreshold (1 / 2) (3 / 4) = 3 / 4 ∧
    setAutoSimilarityThreshold (1 / 2) 2 = 1 / 2 ∧
    (0 ≤ [2, 3 / 4, -(1 : ℚ)].foldl setAutoSimilarityThreshold
        initialAutoSimilarityThreshold ∧
      [2, 3 / 4, -(1 : ℚ)].foldl setAutoSimilarityThreshold
        initialAutoSimilarityThreshold ≤ 1) :=
  ⟨(c10_auto_threshold.1 (1 / 2) (3 / 4)).1 (by norm_num),
   (c10_auto_threshold.1 (1 / 2) 2).2 (by norm_num),
   c10_auto_threshold.2 [2, 3 / 4, -(1 : ℚ)]⟩

/-- C8: on the sweep's early-return path where indexing the new book
fails (here: the new book has zero passages), `compareWithAllBooks`
exits with its internal automatic threshold (`0.5`) still installed as
the passage-comparison service's caller-visible threshold — it is *not*
restored to the user's stored threshold (`0.75`), although the normal
path does restore it.  This contradicts the restore contract (and the
code's own comment "Restore the user's chosen threshold after automatic
comparison"). -/
theorem c8_threshold_restore_skipped :
    ((compareWithAllBooks (fun _ => some [(1 : ℚ)]) true (1 / 2)
        [⟨"new", "N"⟩, ⟨"old", "O"⟩]
        (fun bid => if bid == "old" then [⟨"o1", "t", 0, 1, "old"⟩] else [])
        ⟨3 / 4, 3 / 4, [], []⟩ ⟨"new", "N"⟩).pcsThreshold = 1 / 2) ∧
    ((compareWithAllBooks (fun _ => some [(1 : ℚ)]) true (1 / 2)
        [⟨"new", "N"⟩, ⟨"old", "O"⟩]
        (fun bid => if bid == "old" then [⟨"o1", "t", 0, 1, "old"⟩]
          else [⟨"n1", "t", 0, 1, "new"⟩])
        ⟨3 / 4, 3 / 4, [], []⟩ ⟨"new", "N"⟩).pcsThreshold = 3 / 4) := by
  constructor <;> rfl

/-- C1 (amended): after the sweep's index operation on a *non-empty*
corpus, the per-corpus IndexState (`addIndexedBook`) is set regardless
of individual embedding failures, and `hasVectors` is true iff at least
one passage of the corpus produced an embedding — not iff *every*
passage did (see the counterexample). -/
theorem c1_indexed_state (oracle : String → Option (List ℚ))
    (st : SweepState) (passages : List Passage) (bookId : String)
    (hne : passages ≠ []) (hb : ∀ p ∈ passages, p.bookId = bookId)
    (hst : ∀ v ∈ st.vectors, v.bookId ≠ bookId) :
    ((indexCorpus oracle st passages bookId).indexedBooks.contains bookId = true) ∧
    (hasVectors (indexCorpus oracle st passages bookId).vectors bookId = true ↔
      ∃ p ∈ passages, (oracle p.text).isSome) := by
  have hidx : indexBook oracle st.vectors passages =
      .ok (processPassages oracle st.vectors passages) := by
    unfold indexBook
    rw [if_neg (by simpa [List.isEmpty_iff] using hne)]
  unfold indexCorpus
  rw [hidx]
  refine ⟨addIndexedBook_contains _ _, ?_⟩
  rw [hasVectors_iff]
  constructor
  · rintro ⟨v, hv, hvb⟩
    by_contra hno
    push_neg at hno
    have hall : ∀ p ∈ passages, oracle p.text = none := by
      intro p hp
      have := hno p hp
      cases horc : oracle p.text with
      | none => rfl
      | some w => rw [horc] at this; simp at this
    rw [processPassages_all_fail hall] at hv
    exact hst v hv hvb
  · rintro ⟨p, hp, hps⟩
    exact processPassages_has_book hb (Or.inr ⟨p, hp, hps⟩)

/-- C1 counterexample: a two-passage corpus where the embedding oracle
fails on the second passage.  `indexCorpus` still marks the book's
IndexState and `hasVectors` is still true — the indexed state does not
remain false under a partial embedding failure, contradicting the
claim. -/
theorem c1_counterexample :
    ((fun t => if t == "t1" then some [(1 : ℚ)] else none) "t2" = none) ∧
    hasVectors (indexCorpus (fun t => if t == "t1" then some [(1 : ℚ)] else none)
        ⟨3 / 4, 3 / 4, [], []⟩
        [⟨"a1", "t1", 0, 1, "A"⟩, ⟨"a2", "t2", 0, 1, "A"⟩] "A").vectors "A" = true ∧
    ((indexCorpus (fun t => if t == "t1" then some [(1 : ℚ)] else none)
        ⟨3 / 4, 3 / 4, [], []⟩
        [⟨"a1", "t1", 0, 1, "A"⟩, ⟨"a2", "t2", 0, 1, "A"⟩] "A").indexedBooks.contains
      "A" = true) := by
  refine ⟨rfl, rfl, rfl⟩

/-- C1 witness: the amended theorem applied to the two-passage corpus
with a partially failing oracle. -/
theorem c1_witness :
    ([(⟨"a1", "t1", 0, 1, "A"⟩ : Passage), ⟨"a2", "t2", 0, 1, "A"⟩] ≠ []) ∧
    (((indexCorpus (fun t => if t == "t2" then none else some [(1 : ℚ)])
        ⟨3 / 4, 3 / 4, [], []⟩
        [⟨"a1", "t1", 0, 1, "A"⟩, ⟨"a2", "t2", 0, 1, "A"⟩] "A").indexedBooks.contains
          "A" = true) ∧
      (hasVectors (indexCorpus (fun t => if t == "t2" then none else some [(1 : ℚ)])
          ⟨3 / 4, 3 / 4, [], []⟩
          [⟨"a1", "t1", 0, 1, "A"⟩, ⟨"a2", "t2", 0, 1, "A"⟩] "A").vectors "A" = true ↔
        ∃ p ∈ [(⟨"a1", "t1", 0, 1, "A"⟩ : Passage), ⟨"a2", "t2", 0, 1, "A"⟩],
          ((fun t => if t == "t2" then none else some [(1 : ℚ)]) p.text).isSome)) :=
  ⟨by simp,
   c1_indexed_state (fun t => if t == "t2" then none else some [(1 : ℚ)])
     ⟨3 / 4, 3 / 4, [], []⟩
     [⟨"a1", "t1", 0, 1, "A"⟩, ⟨"a2", "t2", 0, 1, "A"⟩] "A"
     (by simp) (by intro p hp; fin_cases hp <;> rfl) (by intro v hv; simp at hv)⟩

/-- The well-definedness predicate used to compare the two candidate
selection orders: a query result entry carries a defined similarity
with positive `np` (which the hypothesis of `c3_candidate_selection`
guarantees for every target candidate). -/
def definedScore (c : String × Option SimScore) : Prop :=
  ∃ s, c.2 = some s ∧ 0 < s.np

lemma jsSortKeep_total_defined :
    ∀ a b, definedScore a → definedScore b →
      jsSortKeep a b = true ∨ jsSortKeep b a = true := by
  rintro a b ⟨x, hax, hx⟩ ⟨y, hby, hy⟩
  unfold jsSortKeep
  rw [hax, hby]
  rcases simLe_total hy hx with h | h
  · exact Or.inl h
  · exact Or.inr h

lemma jsSortKeep_trans_defined :
    ∀ a b c, definedScore a → definedScore b → definedScore c →
      jsSortKeep a b = true → jsSortKeep b c = true → jsSortKeep a c = true := by
  rintro a b c ⟨x, hax, hx⟩ ⟨y, hby, hy⟩ ⟨z, hcz, hz⟩ h1 h2
  unfold jsSortKeep at h1 h2 ⊢
  rw [hax, hby] at h1
  rw [hby, hcz] at h2
  rw [hax, hcz]
  exact simLe_trans hz hy hx h2 h1

lemma jsSortKeep_mono_defined (t : ℚ) :
    ∀ a b, definedScore a → definedScore b → jsSortKeep a b = true →
      jsNumGe b.2 t = true → jsNumGe a.2 t = true := by
  rintro a b ⟨x, hax, hx⟩ ⟨y, hby, hy⟩ hk hg
  unfold jsSortKeep at hk
  rw [hax, hby] at hk
  rw [hby] at hg
  rw [hax]
  exact simGe_of_simLe hx hy hk hg

/-- C3 (amended): the candidate selection of `compareWithBook` never
returns more than `topK` candidates, never returns one below the
threshold, and only returns ids of stored target-corpus vectors;
moreover, *provided every target candidate's similarity is defined*
(no `NaN` from zero norms or length mismatch), it returns exactly the
spec's "filter to ≥ threshold, then cap to topK" selection of the
descending-sorted candidates (`specSelectCandidates`).  Without that
proviso the two orders of filtering and capping differ — see the
counterexample. -/
theorem c3_candidate_selection (oracle : String → Option (List ℚ))
    (store : List PassageVector) (qp : Passage) (tid : String)
    (topK : Nat) (t : ℚ) :
    (∀ res, selectCandidates oracle store qp tid topK t = .ok res →
      res.length ≤ topK ∧
      (∀ c ∈ res, jsNumGe c.2 t = true) ∧
      (∀ c ∈ res, ∃ pv ∈ getBookVectors store tid, c.1 = pv.passageId)) ∧
    ((∀ qv, oracle qp.text = some qv →
        ∀ pv ∈ getBookVectors store tid, (cosineSimilarity qv pv.vector).isSome) →
      selectCandidates oracle store qp tid topK t =
        specSelectCandidates oracle store qp tid topK t) := by
  constructor
  · intro res hres
    unfold selectCandidates findSimilarPassages at hres
    cases horc : oracle qp.text with
    | none => rw [horc] at hres; simp [Except.map] at hres
    | some qv =>
      rw [horc] at hres
      dsimp only at hres
      by_cases hemp : (getBookVectors store tid).isEmpty
      · rw [if_pos hemp] at hres
        simp [Except.map] at hres
      · rw [if_neg hemp] at hres
        simp only [Except.map, Except.ok.injEq] at hres
        subst hres
        refine ⟨?_, ?_, ?_⟩
        · calc (List.filter _ _).length
              ≤ (List.take topK _).length := List.length_filter_le _ _
            _ ≤ topK := by rw [List.length_take]; exact min_le_left _ _
        · intro c hc
          exact (List.mem_filter.1 hc).2
        · intro c hc
          have hc1 : c ∈ List.take topK (jsSort jsSortKeep
              ((getBookVectors store tid).map
                (fun pv => (pv.passageId, cosineSimilarity qv pv.vector)))) :=
            (List.mem_filter.1 hc).1
          have hc2 := mem_jsSort.1 (List.mem_of_mem_take hc1)
          rcases List.mem_map.1 hc2 with ⟨pv, hpv, hpveq⟩
          exact ⟨pv, hpv, by rw [← hpveq]⟩
  · intro hdef
    unfold selectCandidates findSimilarPassages specSelectCandidates
    cases horc : oracle qp.text with
    | none => simp [Except.map]
    | some qv =>
      dsimp only
      by_cases hemp : (getBookVectors store tid).isEmpty
      · rw [if_pos hemp, if_pos hemp]
        simp [Except.map]
      · rw [if_neg hemp, if_neg hemp]
        simp only [Except.map, Except.ok.injEq]
        set sims := (getBookVectors store tid).map
          (fun pv => (pv.passageId, cosineSimilarity qv pv.vector)) with hsims
        have hall : ∀ c ∈ jsSort jsSortKeep sims, definedScore c := by
          intro c hc
          rcases List.mem_map.1 (mem_jsSort.1 hc) with ⟨pv, hpv, hpveq⟩
          have hds := hdef qv horc pv hpv
          rcases hsome : cosineSimilarity qv pv.vector with _ | s
          · rw [hsome] at hds; simp at hds
          · exact ⟨s, by rw [← hpveq]; simpa using hsome.symm ▸ rfl,
              cosineSimilarity_np_pos hsome⟩
        have hpair : (jsSort jsSortKeep sims).Pairwise
            (fun a b => jsSortKeep a b = true) := by
          refine jsSort_pairwise (P := definedScore)
            jsSortKeep_total_defined jsSortKeep_trans_defined ?_
          intro y hy
          rcases List.mem_map.1 hy with ⟨pv, hpv, hpveq⟩
          have hds := hdef qv horc pv hpv
          rcases hsome : cosineSimilarity qv pv.vector with _ | s
          · rw [hsome] at hds; simp at hds
          · exact ⟨s, by rw [← hpveq]; simpa using hsome.symm ▸ rfl,
              cosineSimilarity_np_pos hsome⟩
        exact take_filter_comm (jsSortKeep_mono_defined t) hall hpair topK

/-- C3 counterexample: with the target store `[z ↦ [0], g ↦ [1]]`
(one zero vector, so one `NaN` similarity), query vector `[1]`,
`topK = 1` and threshold `1/2`, the code's cap-before-filter order
returns `[]`, while the claimed filter-before-cap selection is
`[("g", 1)]` — the claim's "exactly … with the threshold filter applied
before the cap" fails. -/
theorem c3_counterexample :
    selectCandidates (fun _ => some [(1 : ℚ)]) [⟨"z", "B", [0]⟩, ⟨"g", "B", [1]⟩]
      ⟨"q", "q", 0, 0, "A"⟩ "B" 1 (1 / 2) = .ok [] ∧
    specSelectCandidates (fun _ => some [(1 : ℚ)]) [⟨"z", "B", [0]⟩, ⟨"g", "B", [1]⟩]
      ⟨"q", "q", 0, 0, "A"⟩ "B" 1 (1 / 2) = .ok [("g", some ⟨1, 1⟩)] := by
  have hcos0 : cosineSimilarity [(1 : ℚ)] [0] = none := by
    norm_num [cosineSimilarity, dotProduct]
  have hcos1 : cosineSimilarity [(1 : ℚ)] [1] = some ⟨1, 1⟩ := by
    norm_num [cosineSimilarity, dotProduct]
  constructor
  · simp [selectCandidates, findSimilarPassages, specSelectCandidates, getBookVectors,
      jsSort, jsOrderedInsert, jsSortKeep, jsNumGe, simGe, simLe, hcos0, hcos1,
      Except.map]
  · simp [selectCandidates, findSimilarPassages, specSelectCandidates, getBookVectors,
      jsSort, jsOrderedInsert, jsSortKeep, jsNumGe, simGe, simLe, hcos0, hcos1,
      Except.map]
    norm_num

/-- C3 witness: the amended theorem applied to a NaN-free store. -/
theorem c3_witness :
    (selectCandidates (fun _ => some [(1 : ℚ)])
        [⟨"g", "B", [1]⟩, ⟨"h", "B", [1, 2]⟩] ⟨"q", "q", 0, 0, "A"⟩ "B" 1 (1 / 2) =
      .ok [("g", some ⟨1, 1⟩)] ∧
      ([(("g" : String), some (⟨1, 1⟩ : SimScore))].length ≤ 1 ∧
        (∀ c ∈ [(("g" : String), some (⟨1, 1⟩ : SimScore))], jsNumGe c.2 (1 / 2) = true) ∧
        (∀ c ∈ [(("g" : String), some (⟨1, 1⟩ : SimScore))],
          ∃ pv ∈ getBookVectors [⟨"g", "B", [1]⟩, ⟨"h", "B", [1, 2]⟩] "B",
            c.1 = pv.passageId))) ∧
    selectCandidates (fun _ => some [(1 : ℚ)])
        [⟨"g", "B", [1]⟩, ⟨"h", "B", [1, 2]⟩] ⟨"q", "q", 0, 0, "A"⟩ "B" 1 (1 / 2) =
      specSelectCandidates (fun _ => some [(1 : ℚ)])
        [⟨"g", "B", [1]⟩, ⟨"h", "B", [1, 2]⟩] ⟨"q", "q", 0, 0, "A"⟩ "B" 1 (1 / 2) := by
  have hcos1 : cosineSimilarity [(1 : ℚ)] [1] = some ⟨1, 1⟩ := by
    norm_num [cosineSimilarity, dotProduct]
  have hcos2 : cosineSimilarity [(1 : ℚ)] [1, 2] = some ⟨1, 1⟩ := by
    norm_num [cosineSimilarity, dotProduct]
  have hcomp : selectCandidates (fun _ => some [(1 : ℚ)])
      [⟨"g", "B", [1]⟩, ⟨"h", "B", [1, 2]⟩] ⟨"q", "q", 0, 0, "A"⟩ "B" 1 (1 / 2) =
      .ok [("g", some ⟨1, 1⟩)] := by
    simp [selectCandidates, findSimilarPassages, getBookVectors, jsSort,
      jsOrderedInsert, jsSortKeep, jsNumGe, simGe, simLe, hcos1, hcos2, Except.map]
    norm_num
  refine ⟨⟨hcomp, (c3_candidate_selection (fun _ => some [(1 : ℚ)])
      [⟨"g", "B", [1]⟩, ⟨"h", "B", [1, 2]⟩] ⟨"q", "q", 0, 0, "A"⟩ "B" 1 (1 / 2)).1
        _ hcomp⟩,
    (c3_candidate_selection (fun _ => some [(1 : ℚ)])
      [⟨"g", "B", [1]⟩, ⟨"h", "B", [1, 2]⟩] ⟨"q", "q", 0, 0, "A"⟩ "B" 1 (1 / 2)).2 ?_⟩
  intro qv hqv pv hpv
  have hqv1 : qv = [(1 : ℚ)] := by
    injection hqv with hqv
    exact hqv.symm
  subst hqv1
  have : pv ∈ [(⟨"g", "B", [1]⟩ : PassageVector), ⟨"h", "B", [1, 2]⟩] := by
    simpa [getBookVectors] using hpv
  fin_cases this
  · simp [hcos1]
  · simp [hcos2]

lemma relOfItem_ok_some {fid : String} {cands : List Passage}
    {sims : List (Option SimScore)} {item : Json} {rel : PassageRelation}
    (h : relOfItem fid cands sims item = .ok (some rel)) :
    ∃ p ∈ cands, rel.relatedPassageId = p.id := by
  unfold relOfItem at h
  by_cases hn : item.isNull
  · rw [if_pos hn] at h
    cases h
  · rw [if_neg hn] at h
    cases hgf : getField item "passage_id" with
    | none => rw [hgf] at h; simp at h
    | some j =>
      rw [hgf] at h
      cases j with
      | str pid =>
        dsimp only at h
        cases hfind : cands.find? (fun p => p.id == pid) with
        | none =>
          rw [hfind] at h
          simp at h
        | some p =>
          rw [hfind] at h
          dsimp only at h
          injection h with h
          injection h with h
          refine ⟨p, List.mem_of_find?_eq_some hfind, ?_⟩
          have hpid : p.id = pid := by simpa using List.find?_some hfind
          rw [← h, hpid]
      | null => simp at h
      | bool b => simp at h
      | num q => simp at h
      | arr l => simp at h
      | obj ms => simp at h

lemma fullRelOfItem_ok_some {srcs tgts : List Passage} {item : Json}
    {rel : PassageRelation}
    (h : fullRelOfItem srcs tgts item = .ok (some rel)) :
    (∃ p ∈ srcs, rel.focusPassageId = p.id) ∧
    (∃ p ∈ tgts, rel.relatedPassageId = p.id) := by
  unfold fullRelOfItem at h
  by_cases hn : item.isNull
  · rw [if_pos hn] at h
    cases h
  · rw [if_neg hn] at h
    cases hgf : getField item "focus_passage_id" with
    | none => rw [hgf] at h; simp at h
    | some j =>
      rw [hgf] at h
      cases j with
      | str fid =>
        dsimp only at h
        by_cases hsrc : srcs.any (fun p => p.id == fid)
        · rw [if_pos hsrc] at h
          cases hgr : getField item "related_passage_id" with
          | none => rw [hgr] at h; simp at h
          | some j2 =>
            rw [hgr] at h
            cases j2 with
            | str rid =>
              dsimp only at h
              by_cases htgt : tgts.any (fun p => p.id == rid)
              · rw [if_pos htgt] at h
                injection h with h
                injection h with h
                rcases List.any_eq_true.1 hsrc with ⟨p, hp, hpe⟩
                rcases List.any_eq_true.1 htgt with ⟨q, hq, hqe⟩
                subst h
                refine ⟨⟨p, hp, ?_⟩, ⟨q, hq, ?_⟩⟩
                · exact (show p.id = fid by simpa using hpe).symm
                · exact (show q.id = rid by simpa using hqe).symm
              · rw [if_neg htgt] at h
                simp at h
            | null => simp at h
            | bool b => simp at h
            | num q => simp at h
            | arr l => simp at h
            | obj ms => simp at h
        · rw [if_neg hsrc] at h
          simp at h
      | null => simp at h
      | bool b => simp at h
      | num q => simp at h
      | arr l => simp at h
      | obj ms => simp at h

/-- C6: every relation emitted by the retrieval-mode parser names a
supplied candidate as `relatedPassageId`, and every relation emitted by
the whole-book/chapter-mode parser names a source-corpus id as
`focusPassageId` and a target-corpus id as `relatedPassageId`; parsed
items naming any other id are dropped. -/
theorem c6_relation_ids_validated :
    (∀ (r fid : String) (cands : List Passage) (sims : List (Option SimScore))
        (rel : PassageRelation),
      rel ∈ parseRelationsFromResponse r fid cands sims →
        ∃ p ∈ cands, rel.relatedPassageId = p.id) ∧
    (∀ (r : String) (srcs tgts : List Passage) (rel : PassageRelation),
      rel ∈ parseFullBooksRelationsFromResponse r srcs tgts →
        (∃ p ∈ srcs, rel.focusPassageId = p.id) ∧
        (∃ p ∈ tgts, rel.relatedPassageId = p.id)) := by
  constructor
  · intro r fid cands sims rel hrel
    unfold parseRelationsFromResponse at hrel
    cases hpc : parseChain r with
    | none => rw [hpc] at hrel; simp at hrel
    | some v =>
      rw [hpc] at hrel
      cases v with
      | arr items =>
        dsimp only at hrel
        cases hm : items.mapM (relOfItem fid cands sims) with
        | error e => rw [hm] at hrel; simp at hrel
        | ok l =>
          rw [hm] at hrel
          dsimp only at hrel
          rcases List.mem_filterMap.1 hrel with ⟨o, ho, hid⟩
          rcases mapM_ok_mem hm o ho with ⟨item, hitem, hfo⟩
          have hsome : relOfItem fid cands sims item = .ok (some rel) := by
            rw [hfo]
            exact congrArg Except.ok hid
          exact relOfItem_ok_some hsome
      | null => simp at hrel
      | bool b => simp at hrel
      | num q => simp at hrel
      | str s => simp at hrel
      | obj ms => simp at hrel
  · intro r srcs tgts rel hrel
    unfold parseFullBooksRelationsFromResponse at hrel
    cases hpc : parseChain r with
    | none => rw [hpc] at hrel; simp at hrel
    | some v =>
      rw [hpc] at hrel
      cases v with
      | arr items =>
        dsimp only at hrel
        cases hm : items.mapM (fullRelOfItem srcs tgts) with
        | error e => rw [hm] at hrel; simp at hrel
        | ok l =>
          rw [hm] at hrel
          dsimp only at hrel
          rcases List.mem_filterMap.1 hrel with ⟨o, ho, hid⟩
          rcases mapM_ok_mem hm o ho with ⟨item, hitem, hfo⟩
          have hsome : fullRelOfItem srcs tgts item = .ok (some rel) := by
            rw [hfo]
            exact congrArg Except.ok hid
          exact fullRelOfItem_ok_some hsome
      | null => simp at hrel
      | bool b => simp at hrel
      | num q => simp at hrel
      | str s => simp at hrel
      | obj ms => simp at hrel

/-- C6 witness: the theorem applied to concrete well-formed responses
for both parsing modes. -/
theorem c6_witness :
    ((⟨"f", "p1", some (.str "supports"), some (.str "e"), some ⟨1, 1⟩⟩ :
        PassageRelation) ∈
      parseRelationsFromResponse
        "[\x7b\"passage_id\": \"p1\", \"relation\": \"supports\", \"evidence\": \"e\"\x7d]"
        "f" [⟨"p1", "t", 0, 1, "B"⟩] [some ⟨1, 1⟩] ∧
      ∃ p ∈ [(⟨"p1", "t", 0, 1, "B"⟩ : Passage)],
        (⟨"f", "p1", some (.str "supports"), some (.str "e"), some ⟨1, 1⟩⟩ :
          PassageRelation).relatedPassageId = p.id) ∧
    ((⟨"s1", "t1", some (.str "extends"), some (.str "ev"), some ⟨1, 1⟩⟩ :
        PassageRelation) ∈
      parseFullBooksRelationsFromResponse
        "[\x7b\"focus_passage_id\": \"s1\", \"related_passage_id\": \"t1\", \"relation_type\": \"extends\", \"evidence\": \"ev\"\x7d]"
        [⟨"s1", "a", 0, 1, "A"⟩] [⟨"t1", "b", 0, 1, "B"⟩] ∧
      ((∃ p ∈ [(⟨"s1", "a", 0, 1, "A"⟩ : Passage)],
          (⟨"s1", "t1", some (.str "extends"), some (.str "ev"), some ⟨1, 1⟩⟩ :
            PassageRelation).focusPassageId = p.id) ∧
        (∃ p ∈ [(⟨"t1", "b", 0, 1, "B"⟩ : Passage)],
          (⟨"s1", "t1", some (.str "extends"), some (.str "ev"), some ⟨1, 1⟩⟩ :
            PassageRelation).relatedPassageId = p.id))) := by
  have h1 : parseRelationsFromResponse
      "[\x7b\"passage_id\": \"p1\", \"relation\": \"supports\", \"evidence\": \"e\"\x7d]"
      "f" [⟨"p1", "t", 0, 1, "B"⟩] [some ⟨1, 1⟩] =
      [⟨"f", "p1", some (.str "supports"), some (.str "e"), some ⟨1, 1⟩⟩] := rfl
  have h2 : parseFullBooksRelationsFromResponse
      "[\x7b\"focus_passage_id\": \"s1\", \"related_passage_id\": \"t1\", \"relation_type\": \"extends\", \"evidence\": \"ev\"\x7d]"
      [⟨"s1", "a", 0, 1, "A"⟩] [⟨"t1", "b", 0, 1, "B"⟩] =
      [⟨"s1", "t1", some (.str "extends"), some (.str "ev"), some ⟨1, 1⟩⟩] := rfl
  have hm1 : (⟨"f", "p1", some (.str "supports"), some (.str "e"), some ⟨1, 1⟩⟩ :
      PassageRelation) ∈
      parseRelationsFromResponse
        "[\x7b\"passage_id\": \"p1\", \"relation\": \"supports\", \"evidence\": \"e\"\x7d]"
        "f" [⟨"p1", "t", 0, 1, "B"⟩] [some ⟨1, 1⟩] := by
    rw [h1]
    exact List.mem_singleton.2 rfl
  have hm2 : (⟨"s1", "t1", some (.str "extends"), some (.str "ev"), some ⟨1, 1⟩⟩ :
      PassageRelation) ∈
      parseFullBooksRelationsFromResponse
        "[\x7b\"focus_passage_id\": \"s1\", \"related_passage_id\": \"t1\", \"relation_type\": \"extends\", \"evidence\": \"ev\"\x7d]"
        [⟨"s1", "a", 0, 1, "A"⟩] [⟨"t1", "b", 0, 1, "B"⟩] := by
    rw [h2]
    exact List.mem_singleton.2 rfl
  exact ⟨⟨hm1, c6_relation_ids_validated.1 _ _ _ _ _ hm1⟩,
    ⟨hm2, c6_relation_ids_validated.2 _ _ _ _ hm2⟩⟩

/-- C5: when every applicable parsing strategy fails — the fenced block
(if any) does not parse, the bracket slice (if any) does not parse, and
the raw response does not parse — classification's response parser
returns the empty relation list; the function is total, so no error is
raised. -/
theorem c5_unparseable_yields_empty (r fid : String) (cands : List Passage)
    (sims : List (Option SimScore))
    (h1 : ∀ inner, fenceCapture r = some inner → jparse inner = none)
    (h2 : ∀ sl, bracketSlice r = some sl → jparse sl = none)
    (h3 : jparse r = none) :
    parseRelationsFromResponse r fid cands sims = [] := by
  unfold parseRelationsFromResponse
  rw [parseChain_eq_none h1 h2 h3]

/-- C5 witness: the spec's scenario — the classifier oracle answers
`"not json at all"` and the parser returns `[]`. -/
theorem c5_witness :
    fenceCapture "not json at all" = none ∧
    bracketSlice "not json at all" = none ∧
    jparse "not json at all" = none ∧
    parseRelationsFromResponse "not json at all" "f"
      [⟨"p1", "text", 0, 1, "B"⟩] [some ⟨1, 1⟩] = [] := by
  have hf : fenceCapture "not json at all" = none := rfl
  have hb : bracketSlice "not json at all" = none := rfl
  have hj : jparse "not json at all" = none := rfl
  exact ⟨hf, hb, hj,
    c5_unparseable_yields_empty "not json at all" "f" [⟨"p1", "text", 0, 1, "B"⟩]
      [some ⟨1, 1⟩]
      (fun inner hi => by rw [hf] at hi; cases hi)
      (fun sl hs => by rw [hb] at hs; cases hs)
      hj⟩

/-- C4 (amended): when the fenced, bracket-slice and raw parses all
fail, the parser returns the empty list — there is *no* fourth,
fragment-scanning strategy: the result is `[]` even when the response
contains a `passage_id`-shaped object fragment that parses on its own
(see the counterexample). -/
theorem c4_no_fragment_fallback (r fid frag : String) (cands : List Passage)
    (sims : List (Option SimScore))
    (h1 : ∀ inner, fenceCapture r = some inner → jparse inner = none)
    (h2 : ∀ sl, bracketSlice r = some sl → jparse sl = none)
    (h3 : jparse r = none)
    (_hsub : ∃ a b, r = a ++ frag ++ b)
    (_hfrag : ∃ ms, jparse frag = some (.obj ms)) :
    parseRelationsFromResponse r fid cands sims = [] := by
  unfold parseRelationsFromResponse
  rw [parseChain_eq_none h1 h2 h3]

/-- C4 counterexample: a response on which all three strategies fail
but which contains a well-formed `{"passage_id": …}` object fragment
naming a valid candidate.  The claimed fragment-scanning fallback would
return that relation; the code returns `[]`. -/
theorem c4_counterexample :
    parseRelationsFromResponse
        "garbage \x7b\"passage_id\": \"p1\", \"relation\": \"supports\", \"evidence\": \"e\"\x7d garbage"
        "f" [⟨"p1", "t", 0, 1, "B"⟩] [some ⟨1, 1⟩] = [] ∧
    jparse "\x7b\"passage_id\": \"p1\", \"relation\": \"supports\", \"evidence\": \"e\"\x7d" =
      some (.obj [("passage_id", .str "p1"), ("relation", .str "supports"),
        ("evidence", .str "e")]) ∧
    "garbage \x7b\"passage_id\": \"p1\", \"relation\": \"supports\", \"evidence\": \"e\"\x7d garbage" =
      "garbage " ++
        "\x7b\"passage_id\": \"p1\", \"relation\": \"supports\", \"evidence\": \"e\"\x7d" ++
        " garbage" := by
  refine ⟨rfl, rfl, rfl⟩

/-- C4 witness: the amended theorem applied to the fragment-bearing but
unparseable response. -/
theorem c4_witness :
    fenceCapture
        "junk \x7b\"passage_id\": \"p2\", \"relation\": \"extends\", \"evidence\": \"w\"\x7d junk" =
      none ∧
    bracketSlice
        "junk \x7b\"passage_id\": \"p2\", \"relation\": \"extends\", \"evidence\": \"w\"\x7d junk" =
      none ∧
    jparse
        "junk \x7b\"passage_id\": \"p2\", \"relation\": \"extends\", \"evidence\": \"w\"\x7d junk" =
      none ∧
    parseRelationsFromResponse
        "junk \x7b\"passage_id\": \"p2\", \"relation\": \"extends\", \"evidence\": \"w\"\x7d junk"
        "f" [⟨"p2", "t", 0, 1, "B"⟩] [some ⟨1, 1⟩] = [] := by
  have hf : fenceCapture
      "junk \x7b\"passage_id\": \"p2\", \"relation\": \"extends\", \"evidence\": \"w\"\x7d junk" =
      none := rfl
  have hb : bracketSlice
      "junk \x7b\"passage_id\": \"p2\", \"relation\": \"extends\", \"evidence\": \"w\"\x7d junk" =
      none := rfl
  have hj : jparse
      "junk \x7b\"passage_id\": \"p2\", \"relation\": \"extends\", \"evidence\": \"w\"\x7d junk" =
      none := rfl
  refine ⟨hf, hb, hj, ?_⟩
  exact c4_no_fragment_fallback _ "f"
    "\x7b\"passage_id\": \"p2\", \"relation\": \"extends\", \"evidence\": \"w\"\x7d"
    [⟨"p2", "t", 0, 1, "B"⟩] [some ⟨1, 1⟩]
    (fun inner hi => by rw [hf] at hi; cases hi)
    (fun sl hs => by rw [hb] at hs; cases hs)
    hj
    ⟨"junk ", " junk", rfl⟩
    ⟨[("passage_id", .str "p2"), ("relation", .str "extends"), ("evidence", .str "w")],
      rfl⟩

/-- C7: on every non-empty passage list, chapter estimation yields at
least one segment, and the produced segments partition the passage
indices — concatenating the segments' index ranges in order gives
exactly `[0, …, n-1]`, so every index lies in exactly one segment. -/
theorem c7_chapters_partition (passages : List Passage) (h : passages ≠ []) :
    estimateChapters passages ≠ [] ∧
      chapterCover (estimateChapters passages) = List.range passages.length := by
  have hn : 0 < passages.length := List.length_pos.2 h
  unfold estimateChapters
  dsimp only
  have hinv := chaptersLoop_invariant passages passages.length 0 0 []
    (le_refl 0) hn (by simp [chapterCover])
  set r := chaptersLoop passages passages.length 0 0 [] with hr
  have hlt : r.1 < passages.length := hinv.1
  rw [if_pos hlt]
  have hne : r.2 ++ [(⟨r.2.length, r.1, passages.length - 1⟩ : Chapter)] ≠ [] := by
    simp
  rw [if_neg (by simp [List.isEmpty_iff, hne])]
  refine ⟨hne, ?_⟩
  rw [chapterCover_append_single, hinv.2]
  exact range_append_tail (by omega) (by omega)

/-- C7 witness: the theorem applied to a concrete two-passage corpus
with no recognizable headings. -/
theorem c7_witness :
    ([(⟨"a", "first passage", 0, 1, "A"⟩ : Passage),
        ⟨"b", "second passage", 2, 3, "A"⟩] ≠ []) ∧
    (estimateChapters
        [(⟨"a", "first passage", 0, 1, "A"⟩ : Passage),
          ⟨"b", "second passage", 2, 3, "A"⟩] ≠ [] ∧
      chapterCover (estimateChapters
        [(⟨"a", "first passage", 0, 1, "A"⟩ : Passage),
          ⟨"b", "second passage", 2, 3, "A"⟩]) =
        List.range
          [(⟨"a", "first passage", 0, 1, "A"⟩ : Passage),
            ⟨"b", "second passage", 2, 3, "A"⟩].length) :=
  ⟨by simp,
   c7_chapters_partition
     [(⟨"a", "first passage", 0, 1, "A"⟩ : Passage),
       ⟨"b", "second passage", 2, 3, "A"⟩] (by simp)⟩
